import Mathlib

/-!
Shallow embedding of the `personal-webhook` repository's core
(`src/routes/fathom.ts`, `src/services/clickup.ts`, `src/services/groq.ts`)
and proofs about it.

Modelling conventions:
* JavaScript strings are Lean `String`s (`toLowerCase` is modelled with
  `String.toLower`, which lower-cases ASCII; all concrete inputs used in
  proofs are ASCII).
* JavaScript numbers are modelled by `JsNum`: either NaN, a signed
  infinity, or a finite rational.  The arithmetic the code performs on
  them (comparisons with constants, `Math.max/min`, `Number.isFinite`,
  `Number.isInteger`) is exact on these values.
* `process.env` is an explicit `Env` record of `Option String` fields
  (plus the routing table, see `Env`).
* The two remote services are modelled by an `Oracle` of response
  functions; the network stack (`httpRequest`) is collapsed into the
  oracle, which receives the Authorization token actually sent.
-/

namespace PersonalWebhook

/-- The JavaScript whitespace class `\s` (WhiteSpace + LineTerminator),
used by `String.prototype.trim` and the `\s` regex class. -/
def jsWhitespace (c : Char) : Bool :=
  c ∈ [' ', '\t', '\n', '\r', '\x0b', '\x0c',
       '\u00a0', '\u1680', '\u2000', '\u2001', '\u2002', '\u2003',
       '\u2004', '\u2005', '\u2006', '\u2007', '\u2008', '\u2009',
       '\u200a', '\u2028', '\u2029', '\u202f', '\u205f', '\u3000',
       '\ufeff']

/-- JavaScript `String.prototype.trim`. -/
def trimJs (s : String) : String :=
  String.mk (((s.toList.dropWhile jsWhitespace).reverse.dropWhile jsWhitespace).reverse)

/-- JavaScript truthiness of a possibly-absent string: `undefined` and
`''` are falsy.  Returns the string when truthy. -/
def strTruthy (o : Option String) : Option String :=
  match o with
  | none => none
  | some s => if s = "" then none else some s

/-- Does `hay` start with `needle`? (helper for `strIncludes`). -/
def charsLeadWith : List Char → List Char → Bool
  | [], _ => true
  | _ :: _, [] => false
  | a :: as, b :: bs => a == b && charsLeadWith as bs

/-- Scan `hay` for an occurrence of `needle` at any position. -/
def scanFor (needle : List Char) : List Char → Bool
  | [] => needle.isEmpty
  | c :: rest => charsLeadWith needle (c :: rest) || scanFor needle rest

/-- JavaScript `String.prototype.includes` (substring test; the empty
needle is contained in every string). -/
def strIncludes (hay needle : String) : Bool :=
  scanFor needle.toList hay.toList

/-- `String.prototype.toLowerCase`, as a character map (ASCII range;
all concrete inputs used in proofs are ASCII). -/
def toLowerJs (s : String) : String :=
  String.mk (s.toList.map Char.toLower)

/-- `fathom.ts` `normalize`: `value.toLowerCase().trim()`. -/
def normalize (value : String) : String :=
  trimJs (toLowerJs value)

/-- JavaScript `String(n).padStart(2, '0')` applied to an already
rendered numeral. -/
def padStart2 (s : String) : String :=
  if s.length ≥ 2 then s else String.mk (List.replicate (2 - s.length) '0') ++ s

/-- A JavaScript number: NaN, ±Infinity, or a finite value (modelled as
an exact rational). -/
inductive JsNum where
  | nan : JsNum
  | inf : Bool → JsNum   -- `true` = negative infinity
  | fin : ℚ → JsNum
deriving Repr, DecidableEq

/-- `Number.isFinite`. -/
def JsNum.isFiniteNum : JsNum → Bool
  | .fin _ => true
  | _ => false

/-- `Math.max(0, Math.min(1, q))` on a finite value. -/
def clamp01 (q : ℚ) : ℚ := max 0 (min 1 q)

/-- Digit value in base ≤ 36, or none. -/
def digitVal (base : Nat) (c : Char) : Option Nat :=
  let v : Option Nat :=
    if '0' ≤ c ∧ c ≤ '9' then some (c.toNat - '0'.toNat)
    else if 'a' ≤ c ∧ c ≤ 'z' then some (c.toNat - 'a'.toNat + 10)
    else if 'A' ≤ c ∧ c ≤ 'Z' then some (c.toNat - 'A'.toNat + 10)
    else none
  match v with
  | some n => if n < base then some n else none
  | none => none

/-- Parse a nonempty digit run in the given base. -/
def parseDigits (base : Nat) (cs : List Char) : Option Nat :=
  if cs.isEmpty then none
  else cs.foldl (fun acc c =>
    match acc, digitVal base c with
    | some a, some d => some (a * base + d)
    | _, _ => none) (some 0)

/-- Parse the `digits [. digits]` mantissa of a decimal literal:
returns the numerator and the number of fractional digits. -/
def parseMantissa (cs : List Char) : Option (Nat × Nat) :=
  let intPart := cs.takeWhile (fun c => decide ('0' ≤ c ∧ c ≤ '9'))
  let rest := cs.dropWhile (fun c => decide ('0' ≤ c ∧ c ≤ '9'))
  match rest with
  | [] => (parseDigits 10 intPart).map (fun n => (n, 0))
  | '.' :: fracs =>
      if (fracs.all fun c => decide ('0' ≤ c ∧ c ≤ '9')) then
        if intPart.isEmpty ∧ fracs.isEmpty then none
        else
          let iv := (parseDigits 10 intPart).getD 0
          let fv := (parseDigits 10 fracs).getD 0
          some (iv * 10 ^ fracs.length + fv, fracs.length)
      else none
  | _ => none

/-- Split a decimal literal at its exponent marker (`e`/`E`), if any. -/
def splitExponent (cs : List Char) : List Char × Option (List Char) :=
  let m := cs.takeWhile (fun c => c ≠ 'e' ∧ c ≠ 'E')
  let r := cs.dropWhile (fun c => c ≠ 'e' ∧ c ≠ 'E')
  match r with
  | [] => (m, none)
  | _ :: ex => (m, some ex)

/-- Parse a signed decimal exponent. -/
def parseExponent (cs : List Char) : Option Int :=
  match cs with
  | '+' :: ds => (parseDigits 10 ds).map Int.ofNat
  | '-' :: ds => (parseDigits 10 ds).map (fun n => -(Int.ofNat n))
  | ds => (parseDigits 10 ds).map Int.ofNat

/-- Scale a rational by a power of ten. -/
def scalePow10 (q : ℚ) (e : Int) : ℚ :=
  if 0 ≤ e then q * (10 : ℚ) ^ e.toNat else q * mkRat 1 (10 ^ (-e).toNat)

/-- The value of a JavaScript `Number(string)` conversion.

Modelled subset of the JS grammar: whitespace trimming, the empty
string (`0`), optional sign, `Infinity`, `0x`/`0o`/`0b` integer
literals (unsigned only, as in JS), and signed decimal literals with
optional fraction and exponent.  Everything else is NaN. -/
def jsStrToNumber (s : String) : JsNum :=
  let t := (trimJs s).toList
  if t.isEmpty then .fin 0
  else
    match t with
    | '0' :: 'x' :: ds => match parseDigits 16 ds with
      | some n => .fin n | none => .nan
    | '0' :: 'X' :: ds => match parseDigits 16 ds with
      | some n => .fin n | none => .nan
    | '0' :: 'o' :: ds => match parseDigits 8 ds with
      | some n => .fin n | none => .nan
    | '0' :: 'O' :: ds => match parseDigits 8 ds with
      | some n => .fin n | none => .nan
    | '0' :: 'b' :: ds => match parseDigits 2 ds with
      | some n => .fin n | none => .nan
    | '0' :: 'B' :: ds => match parseDigits 2 ds with
      | some n => .fin n | none => .nan
    | _ =>
      let (neg, body) : Bool × List Char :=
        match t with
        | '+' :: r => (false, r)
        | '-' :: r => (true, r)
        | r => (false, r)
      if body = "Infinity".toList then .inf neg
      else
        let (mant, ex) := splitExponent body
        match parseMantissa mant with
        | none => .nan
        | some (num, fracLen) =>
          let base : ℚ := mkRat (Int.ofNat num) (10 ^ fracLen)
          let signed := if neg then -base else base
          match ex with
          | none => .fin signed
          | some exChars => match parseExponent exChars with
            | some e => .fin (scalePow10 signed e)
            | none => .nan

/-! ## JSON values and the environment -/

/-- A parsed JSON value (result of `JSON.parse`).  Numbers are finite
rationals: JSON has no NaN/Infinity literals. -/
inductive JVal where
  | jnull : JVal
  | jbool : Bool → JVal
  | jnum : ℚ → JVal
  | jstr : String → JVal
  | jarr : List JVal → JVal
  | jobj : List (String × JVal) → JVal

/-- JavaScript property access `v[key]` on a parsed JSON value: only
objects have named properties (for duplicate keys `JSON.parse` keeps
the last occurrence); on arrays and primitives named access yields
`undefined`. -/
def jget : JVal → String → Option JVal
  | .jobj fs, key => (fs.reverse.find? (fun f => f.1 == key)).map (·.2)
  | _, _ => none

/-- `typeof v[key] === 'string' ? v[key] : undefined`. -/
def jgetStr (v : JVal) (key : String) : Option String :=
  match jget v key with
  | some (.jstr s) => some s
  | _ => none

/-- `route && typeof route === 'object'`: truthy values of type
`object` are arrays and plain objects (`null` is falsy). -/
def jvalTruthyObject : JVal → Bool
  | .jarr _ => true
  | .jobj _ => true
  | _ => false

/-- JavaScript `Number(v)` on a parsed JSON value.  Arrays convert via
their joined string form; only the cases `[]` and a one-element array
are modelled, nested arrays and objects give NaN. -/
def jsToNumber : JVal → JsNum
  | .jnull => .fin 0
  | .jbool b => .fin (if b then 1 else 0)
  | .jnum q => .fin q
  | .jstr s => jsStrToNumber s
  | .jarr [] => .fin 0
  | .jarr [.jnum q] => .fin q
  | .jarr [.jstr s] => jsStrToNumber s
  | .jarr _ => .nan
  | .jobj _ => .nan

/-- The `process.env` variables the core reads.
`routingJson` models `CLICKUP_MEETING_ROUTING_JSON`: `none` when the
variable is unset or empty (falsy), `some none` when set but
`JSON.parse` throws, `some (some v)` when it parses to `v`. -/
structure Env where
  routingJson : Option (Option JVal) := none
  clickupDefaultTaskId : Option String := none
  clickupApiToken : Option String := none
  clickupTaskCreationListId : Option String := none
  clickupEnableTaskCreation : Option String := none
  clickupTaskDefaultStatus : Option String := none
  clickupTaskAssigneeIds : Option String := none
  clickupTeamLeadUserId : Option String := none
  groqTaskConfidenceThreshold : Option String := none
  clickupMainTaskDescriptionMaxChars : Option String := none
  groqApiKey : Option String := none

/-! ## Route table (`fathom.ts` lines 7–121) -/

/-- `taskRouting` block of a configured route. -/
structure TaskRoutingConfig where
  enabled : Option Bool := none
  targetSpaceId : Option String := none
  targetFolderId : Option String := none
  targetListId : Option String := none
  defaultStatus : Option String := none
  assigneeIds : Option (List Int) := none
  confidenceThreshold : Option JsNum := none
deriving Repr, DecidableEq

/-- A validated `ClickUpMeetingRoute`. -/
structure ClickUpMeetingRoute where
  name : String
  keywords : List String
  commentTaskId : String
  clickupApiToken : Option String := none
  spaceId : Option String := none
  folderId : Option String := none
  listId : Option String := none
  taskRouting : Option TaskRoutingConfig := none
deriving Repr, DecidableEq

/-- A route plus the keywords that matched the current event. -/
structure ResolvedMeetingRoute extends ClickUpMeetingRoute where
  matchedKeywords : List String
deriving Repr, DecidableEq

/-- The `taskRouting` mapping inside `parseMeetingRoutes`
(`rawTaskRouting && typeof rawTaskRouting === 'object' ? {...} :
undefined`). -/
def parseTaskRouting (raw : Option JVal) : Option TaskRoutingConfig :=
  match raw with
  | some v =>
    if jvalTruthyObject v then
      some {
        enabled := match jget v "enabled" with
          | some (.jbool b) => some b
          | _ => none
        targetListId := jgetStr v "targetListId"
        targetSpaceId := jgetStr v "targetSpaceId"
        targetFolderId := jgetStr v "targetFolderId"
        defaultStatus := jgetStr v "defaultStatus"
        assigneeIds := match jget v "assigneeIds" with
          | some (.jarr xs) => some (xs.filterMap (fun x =>
              match jsToNumber x with
              | .fin q => if q.den = 1 ∧ 0 < q.num then some q.num else none
              | _ => none))
          | _ => none
        confidenceThreshold := match jget v "confidenceThreshold" with
          | some (.jnum q) => some (.fin q)
          | _ => none }
    else none
  | none => none

/-- One entry of the routing array (`parsed.map((route, index) => ...)`
in `parseMeetingRoutes`): `null` when the entry is dropped. -/
def parseRouteEntry (v : JVal) : Option ClickUpMeetingRoute :=
  if !jvalTruthyObject v then none
  else
    let name := match jgetStr v "name" with
      | some s => trimJs s
      | none => ""
    let commentTaskId := match jgetStr v "commentTaskId" with
      | some s => trimJs s
      | none => match jgetStr v "taskId" with
        | some s => trimJs s
        | none => ""
    let keywords := match jget v "keywords" with
      | some (.jarr xs) => xs.filterMap (fun x =>
          match x with
          | .jstr s => some s
          | _ => none)
      | _ => []
    if name = "" ∨ commentTaskId = "" ∨ keywords = [] then none
    else some {
      name := name
      commentTaskId := commentTaskId
      clickupApiToken := (jgetStr v "clickupApiToken").map trimJs
      keywords := keywords
      spaceId := jgetStr v "spaceId"
      folderId := jgetStr v "folderId"
      listId := jgetStr v "listId"
      taskRouting := parseTaskRouting (jget v "taskRouting") }

/-- `parseMeetingRoutes`: unset/empty variable, a parse error, or a
non-array value all yield the empty table (logged, never fatal). -/
def parseMeetingRoutes (env : Env) : List ClickUpMeetingRoute :=
  match env.routingJson with
  | none => []
  | some none => []
  | some (some (.jarr items)) => items.filterMap parseRouteEntry
  | some (some _) => []

/-! ## Config resolution chain (`fathom.ts` lines 202–273) -/

/-- `parseAssigneeIdsFromRaw`. -/
def parseAssigneeIdsFromRaw (rawIds : String) : List Int :=
  if trimJs rawIds = "" then []
  else (rawIds.splitOn ",").filterMap (fun piece =>
    match jsStrToNumber (trimJs piece) with
    | .fin q => if q.den = 1 ∧ 0 < q.num then some q.num else none
    | _ => none)

/-- `parseGlobalAssigneeIds`. -/
def parseGlobalAssigneeIds (env : Env) : List Int :=
  parseAssigneeIdsFromRaw
    ((strTruthy env.clickupTaskAssigneeIds).getD
      ((strTruthy env.clickupTeamLeadUserId).getD ""))

/-- `parseGlobalConfidenceThreshold`: `Number(raw || '0.5')`, NaN and
infinities fall back to `0.5`, then clamp to `[0, 1]`. -/
def parseGlobalConfidenceThreshold (env : Env) : ℚ :=
  match jsStrToNumber ((strTruthy env.groqTaskConfidenceThreshold).getD "0.5") with
  | .fin q => clamp01 q
  | _ => mkRat 1 2

/-- `resolveTaskCreationListId`:
`route.taskRouting?.targetListId?.trim() || route.listId ||
configuredListId || null` (empty strings are falsy). -/
def resolveTaskCreationListId (env : Env) (route : ResolvedMeetingRoute) : Option String :=
  match strTruthy ((route.taskRouting.bind (·.targetListId)).map trimJs) with
  | some s => some s
  | none => match strTruthy route.listId with
    | some s => some s
    | none => strTruthy (env.clickupTaskCreationListId.map trimJs)

/-- `isGlobalTaskCreationEnabled`. -/
def isGlobalTaskCreationEnabled (env : Env) : Bool :=
  let flag := trimJs (toLowerJs ((strTruthy env.clickupEnableTaskCreation).getD "true"))
  !(["false", "0", "no", "off"].contains flag)

/-- `isTaskCreationEnabledForRoute`. -/
def isTaskCreationEnabledForRoute (env : Env) (route : ResolvedMeetingRoute) : Bool :=
  match route.taskRouting.bind (·.enabled) with
  | some b => b
  | none => isGlobalTaskCreationEnabled env

/-- `resolveTaskStatusForRoute`. -/
def resolveTaskStatusForRoute (env : Env) (route : ResolvedMeetingRoute) : String :=
  match strTruthy ((route.taskRouting.bind (·.defaultStatus)).map trimJs) with
  | some s => s
  | none => trimJs ((strTruthy env.clickupTaskDefaultStatus).getD "backlog")

/-- `resolveAssigneeIdsForRoute`. -/
def resolveAssigneeIdsForRoute (env : Env) (route : ResolvedMeetingRoute) : List Int :=
  match route.taskRouting.bind (·.assigneeIds) with
  | some ids => if ids.length > 0 then ids else parseGlobalAssigneeIds env
  | none => parseGlobalAssigneeIds env

/-- `resolveConfidenceThresholdForRoute`: a finite route-level number
is clamped to `[0,1]`, otherwise the global threshold applies. -/
def resolveConfidenceThresholdForRoute (env : Env) (route : ResolvedMeetingRoute) : ℚ :=
  match route.taskRouting.bind (·.confidenceThreshold) with
  | some (.fin q) => clamp01 q
  | _ => parseGlobalConfidenceThreshold env

/-! ## The inbound Fathom payload (`types.ts`) -/

/-- A JavaScript string sitting in a date position, modelled by its
emptiness (for `||`-truthiness) and its `new Date(...)` parse result
in epoch milliseconds (`none` = Invalid Date; an empty string also
parses invalid). -/
structure JsDateStr where
  isEmptyStr : Bool := false
  ms : Option Int := none
deriving Repr, DecidableEq

/-- `recorded_by`. -/
structure RecordedBy where
  email : Option String := none
  email_domain : Option String := none
  name : Option String := none
deriving Repr, DecidableEq

/-- One `calendar_invitees` entry. -/
structure Invitee where
  email : Option String := none
  email_domain : Option String := none
  name : Option String := none
deriving Repr, DecidableEq

/-- `transcript` entry speaker. -/
structure Speaker where
  display_name : Option String := none
deriving Repr, DecidableEq

/-- One `transcript` entry. -/
structure TranscriptEntry where
  speaker : Option Speaker := none
  text : Option String := none
  timestamp : Option String := none
deriving Repr, DecidableEq

/-- `default_summary`. -/
structure DefaultSummary where
  markdown_formatted : Option String := none
deriving Repr, DecidableEq

/-- The inbound `FathomWebhookPayload`.  `otherKeys` counts any own
enumerable JSON keys beyond the typed fields, so that
`Object.keys(payload).length` is representable. -/
structure FathomWebhookPayload where
  event : Option String := none
  title : Option String := none
  meeting_title : Option String := none
  share_url : Option String := none
  url : Option String := none
  summary : Option String := none
  default_summary : Option DefaultSummary := none
  recorded_by : Option RecordedBy := none
  calendar_invitees : Option (List Invitee) := none
  recording_start_time : Option JsDateStr := none
  recording_end_time : Option JsDateStr := none
  scheduled_start_time : Option JsDateStr := none
  scheduled_end_time : Option JsDateStr := none
  created_at : Option JsDateStr := none
  timestamp : Option JsDateStr := none
  transcript : Option (List TranscriptEntry) := none
  otherKeys : Nat := 0
deriving Repr, DecidableEq

/-- `Object.keys(payload).length`. -/
def FathomWebhookPayload.keysLength (p : FathomWebhookPayload) : Nat :=
  p.otherKeys
    + p.event.toList.length + p.title.toList.length + p.meeting_title.toList.length
    + p.share_url.toList.length + p.url.toList.length + p.summary.toList.length
    + p.default_summary.toList.length + p.recorded_by.toList.length
    + p.calendar_invitees.toList.length + p.recording_start_time.toList.length
    + p.recording_end_time.toList.length + p.scheduled_start_time.toList.length
    + p.scheduled_end_time.toList.length + p.created_at.toList.length
    + p.timestamp.toList.length + p.transcript.toList.length

/-! ## Route resolution (`resolveClickUpRoute`, lines 275–331) -/

/-- `(payload.meeting_title || payload.title || '').trim()`. -/
def meetingTitleTrimmed (p : FathomWebhookPayload) : String :=
  trimJs ((strTruthy p.meeting_title).getD ((strTruthy p.title).getD ""))

/-- The normalized matching fields: title, recorder name/email/domain,
each invitee's name/email/domain, with empty strings dropped
(`.map(normalize).filter(Boolean)`). -/
def matchingFieldsFor (p : FathomWebhookPayload) : List String :=
  (([meetingTitleTrimmed p,
     ((p.recorded_by.bind (·.name)).getD ""),
     ((p.recorded_by.bind (·.email)).getD ""),
     ((p.recorded_by.bind (·.email_domain)).getD "")]
    ++ (p.calendar_invitees.getD []).flatMap (fun invitee =>
         [invitee.name.getD "", invitee.email.getD "", invitee.email_domain.getD ""]))
    |>.map normalize).filter (fun s => s != "")

/-- The keywords of `route` (normalized) that occur as a substring of
some matching field. -/
def matchedKeywordsFor (fields : List String) (route : ClickUpMeetingRoute) : List String :=
  (route.keywords.map normalize).filter
    (fun keyword => fields.any (fun field => strIncludes field keyword))

/-- Score of a route against the matching fields. -/
def scoreFor (fields : List String) (route : ClickUpMeetingRoute) : Nat :=
  (matchedKeywordsFor fields route).length

/-- One scored entry of `scoredRoutes`. -/
structure ScoredRoute where
  route : ClickUpMeetingRoute
  matchedKeywords : List String
  score : Nat
deriving Repr, DecidableEq

/-- Scoring map of `scoredRoutes` (before filter/sort). -/
def scoreRoute (fields : List String) (route : ClickUpMeetingRoute) : ScoredRoute :=
  { route := route
    matchedKeywords := matchedKeywordsFor fields route
    score := scoreFor fields route }

/-- Stable insertion used to model ES2019+
`Array.prototype.sort((a, b) => b.score - a.score)`: an element passes
over strictly greater scores and lands before the first element whose
score is less than or equal to its own, so that equal scores keep
their original relative order. -/
def insertByScore (x : ScoredRoute) : List ScoredRoute → List ScoredRoute
  | [] => [x]
  | y :: ys => if y.score ≤ x.score then x :: y :: ys else y :: insertByScore x ys

/-- Stable sort by score descending (insertion sort realizes the
guaranteed-stable JS sort). -/
def sortRoutesDesc : List ScoredRoute → List ScoredRoute
  | [] => []
  | x :: xs => insertByScore x (sortRoutesDesc xs)

/-- The sorted, positively scored route list of `resolveClickUpRoute`. -/
def scoredRoutesFor (fields : List String) (routes : List ClickUpMeetingRoute) : List ScoredRoute :=
  sortRoutesDesc ((routes.map (scoreRoute fields)).filter (fun item => decide (0 < item.score)))

/-- The synthetic fallback route built from `CLICKUP_DEFAULT_TASK_ID`. -/
def defaultRouteFor (fallbackTaskId : String) : ResolvedMeetingRoute :=
  { name := "default"
    commentTaskId := fallbackTaskId
    keywords := []
    matchedKeywords := [] }

/-- Core of `resolveClickUpRoute`, abstracted over the parsed table and
the (already trimmed) fallback task id. -/
def resolveRouteFromTable (routes : List ClickUpMeetingRoute) (fallbackTaskId : Option String)
    (p : FathomWebhookPayload) : Option ResolvedMeetingRoute :=
  if routes.isEmpty ∧ (strTruthy fallbackTaskId).isNone then none
  else
    match (scoredRoutesFor (matchingFieldsFor p) routes).head? with
    | some bestMatch =>
        some { bestMatch.route with matchedKeywords := bestMatch.matchedKeywords }
    | none =>
        match strTruthy fallbackTaskId with
        | some fid => some (defaultRouteFor fid)
        | none => none

/-- `resolveClickUpRoute`. -/
def resolveClickUpRoute (env : Env) (p : FathomWebhookPayload) : Option ResolvedMeetingRoute :=
  resolveRouteFromTable (parseMeetingRoutes env) (env.clickupDefaultTaskId.map trimJs) p

/-! ## Content formatting (`fathom.ts` lines 125–200, 333–402) -/

/-- Civil date (year, month, day) of a day number relative to
1970-01-01 (Euclidean divisions; standard days-to-civil algorithm). -/
def civilFromDays (z0 : Int) : Int × Nat × Nat :=
  let z := z0 + 719468
  let era := Int.ediv z 146097
  let doe := z - era * 146097
  let yoe := Int.ediv (doe - Int.ediv doe 1460 + Int.ediv doe 36524 - Int.ediv doe 146096) 365
  let doy := doe - (365 * yoe + Int.ediv yoe 4 - Int.ediv yoe 100)
  let mp := Int.ediv (5 * doy + 2) 153
  let d := doy - Int.ediv (153 * mp + 2) 5 + 1
  let m := mp + (if mp < 10 then 3 else -9)
  (yoe + era * 400 + (if m ≤ 2 then 1 else 0), m.toNat, d.toNat)

/-- `||`-coalescing of date-position strings (empty string is falsy). -/
def dateOr (a b : Option JsDateStr) : Option JsDateStr :=
  match a with
  | some d => if d.isEmptyStr then b else some d
  | none => b

/-- `formatMeetingDate`: first truthy of recording start / scheduled
start / created at / timestamp, rendered `DD-MM-YYYY`, else `N/A`.
The model renders the UTC civil date (the source uses the server's
local `Date#getDate` family; no claim depends on the time zone). -/
def formatMeetingDate (p : FathomWebhookPayload) : String :=
  match dateOr p.recording_start_time
      (dateOr p.scheduled_start_time (dateOr p.created_at p.timestamp)) with
  | none => "N/A"
  | some rawDate =>
    match rawDate.ms with
    | none => "N/A"
    | some ms =>
      let (y, m, d) := civilFromDays (ms / 86400000)
      padStart2 (toString d) ++ "-" ++ padStart2 (toString m) ++ "-" ++ toString y

/-- `parseIsoDate` on a date-position field: absent, empty, or
unparseable values give `null`. -/
def parseIsoDate (v : Option JsDateStr) : Option Int :=
  match v with
  | none => none
  | some d => if d.isEmptyStr then none else d.ms

/-- `getMeetingDurationSeconds`: note that start and end are coalesced
independently (`recordingStart || scheduledStart` and
`recordingEnd || scheduledEnd`), and non-positive durations become
`null`.  `Math.floor` of the real quotient is `Int.ediv` (divisor is
positive). -/
def getMeetingDurationSeconds (p : FathomWebhookPayload) : Option Int :=
  let start := match parseIsoDate p.recording_start_time with
    | some s => some s
    | none => parseIsoDate p.scheduled_start_time
  let stop := match parseIsoDate p.recording_end_time with
    | some e => some e
    | none => parseIsoDate p.scheduled_end_time
  match start, stop with
  | some s, some e =>
    let duration := (e - s) / 1000
    if 0 < duration then some duration else none
  | _, _ => none

/-- `formatMeetingDuration`.  (`!durationSeconds` is also true for `0`,
which `getMeetingDurationSeconds` never returns but the model keeps the
check; for positive values `ediv`/`emod` agree with the JS operators.) -/
def formatMeetingDuration (p : FathomWebhookPayload) : String :=
  match getMeetingDurationSeconds p with
  | none => "N/A"
  | some durationSeconds =>
    if durationSeconds = 0 then "N/A"
    else
      let hours := durationSeconds / 3600
      let minutes := durationSeconds % 3600 / 60
      if 0 < hours then
        padStart2 (toString hours) ++ "h " ++ padStart2 (toString minutes) ++ "m"
      else
        padStart2 (toString minutes) ++ "m"

/-- `getSummaryText`. -/
def getSummaryText (p : FathomWebhookPayload) : String :=
  match strTruthy (p.default_summary.bind (·.markdown_formatted)) with
  | some md => trimJs md
  | none =>
    match p.summary with
    | some s => if trimJs s ≠ "" then trimJs s else "No summary provided by Fathom."
    | none => "No summary provided by Fathom."

/-- `buildClickUpComment`. -/
def buildClickUpComment (p : FathomWebhookPayload) : String :=
  let meetingTitle := (strTruthy p.meeting_title).getD ((strTruthy p.title).getD "Untitled Meeting")
  let shareUrl := (strTruthy p.share_url).getD ((strTruthy p.url).getD "N/A")
  let meetingDate := formatMeetingDate p
  let summary := getSummaryText p
  String.intercalate "\n"
    [meetingTitle ++ " " ++ meetingDate ++ " : " ++ shareUrl ++ ".",
     "\nKindly check summary as below:\n",
     summary]

/-- `buildMainMeetingTaskName`. -/
def buildMainMeetingTaskName (p : FathomWebhookPayload) : String :=
  let meetingDate := formatMeetingDate p
  let meetingTitle := (strTruthy p.meeting_title).getD ((strTruthy p.title).getD "Untitled Meeting")
  let meetingDuration := formatMeetingDuration p
  meetingDate ++ " - Meeting discussed tasks | Title: " ++ meetingTitle
    ++ " | Duration: " ++ meetingDuration

/-- `buildTranscriptTextForDescription`. -/
def buildTranscriptTextForDescription (p : FathomWebhookPayload) : String :=
  match p.transcript with
  | none => "Transcript not available."
  | some [] => "Transcript not available."
  | some entries =>
    String.intercalate "\n" (entries.map (fun entry =>
      let ts := (strTruthy entry.timestamp).getD "00:00:00"
      let speaker := (strTruthy (entry.speaker.bind (·.display_name))).getD "Unknown"
      let text := trimJs (entry.text.getD "")
      "[" ++ ts ++ "] " ++ speaker ++ ": " ++ text))

/-- JavaScript `ToIntegerOrInfinity` truncation of a finite number. -/
def jsTruncQ (q : ℚ) : Int :=
  if 0 ≤ q then ⌊q⌋ else -⌊-q⌋

/-- `buildMainTaskDescription`: the assembled description, truncated to
`CLICKUP_MAIN_TASK_DESCRIPTION_MAX_CHARS` (default 50000) with a
trailing marker.  String length is modelled as character count (the
source counts UTF-16 code units; all inputs used in proofs are ASCII). -/
def buildMainTaskDescription (env : Env) (p : FathomWebhookPayload)
    (extractedCount : Nat) : String :=
  let meetingTitle := (strTruthy p.meeting_title).getD ((strTruthy p.title).getD "Untitled Meeting")
  let description := String.intercalate "\n"
    ["Auto-created from Fathom meeting transcript.",
     "Meeting title: " ++ meetingTitle,
     "Meeting date: " ++ formatMeetingDate p,
     "Meeting duration: " ++ formatMeetingDuration p,
     "Meeting link: " ++ ((strTruthy p.share_url).getD ((strTruthy p.url).getD "N/A")),
     "Total extracted task items: " ++ toString extractedCount,
     "",
     "Call Transcript:",
     buildTranscriptTextForDescription p]
  let maxChars := jsStrToNumber ((strTruthy env.clickupMainTaskDescriptionMaxChars).getD "50000")
  match maxChars with
  | .fin q =>
    if q ≤ 0 ∨ (description.length : ℚ) ≤ q then description
    else
      let ellipsis := "\n\n[Transcript truncated due to length]"
      let cut := max 0 (jsTruncQ q - (ellipsis.length : Int))
      String.mk (description.toList.take cut.toNat) ++ ellipsis
  | _ => description

/-- `buildSubtaskDescription`.  `confidence.toFixed(2)` is modelled as
rounding the rational to two decimals, half away from zero. -/
def buildSubtaskDescription (evidence : String) (confidence : ℚ) : String :=
  let scaled : Int := (confidence * 100 + mkRat 1 2).floor
  let absScaled := scaled.natAbs
  let sign := if scaled < 0 then "-" else ""
  let formatted := sign ++ toString (absScaled / 100) ++ "." ++ padStart2 (toString (absScaled % 100))
  let evidenceLine := if trimJs evidence ≠ "" then trimJs evidence else "No evidence snippet provided."
  "Evidence: " ++ evidenceLine ++ "\nConfidence: " ++ formatted

/-! ## Markdown → ClickUp comment blocks (`fathom.ts` lines 483–540) -/

/-- The punctuation class of `unescapeMarkdown`'s regex
`\\([\\`*_{}\[\]()#+\-.!&])`. -/
def escapableChar (c : Char) : Bool :=
  c ∈ ['\\', '\x60', '*', '_', '\x7b', '\x7d', '[', ']', '(', ')', '#', '+', '-', '.', '!', '&']

/-- `unescapeMarkdown` over characters: each `\c` with escapable `c`
is replaced by `c` (non-overlapping, left to right). -/
def unescapeChars : List Char → List Char
  | [] => []
  | '\\' :: c :: rest =>
    if escapableChar c then c :: unescapeChars rest
    else '\\' :: unescapeChars (c :: rest)
  | c :: rest => c :: unescapeChars rest

/-- `unescapeMarkdown`. -/
def unescapeMarkdown (s : String) : String :=
  String.mk (unescapeChars s.toList)

/-- Is there any backslash escape (a match of the `unescapeMarkdown`
regex) in the line? -/
def hasEscapeSeq : List Char → Bool
  | [] => false
  | '\\' :: c :: rest => escapableChar c || hasEscapeSeq (c :: rest)
  | _ :: rest => hasEscapeSeq rest

/-- Test-and-strip of the heading marker `/^#{1,6}\s+/`: with
backtracking, the regex matches exactly when the leading run of `#` has
length 1–6 and is followed by a whitespace character; the match removes
the hashes and the whitespace run. -/
def headingStrip (cs : List Char) : Option (List Char) :=
  let hashes := cs.takeWhile (fun c => c == '#')
  let rest := cs.dropWhile (fun c => c == '#')
  if 1 ≤ hashes.length ∧ hashes.length ≤ 6 then
    match rest with
    | c :: _ => if jsWhitespace c then some (rest.dropWhile jsWhitespace) else none
    | [] => none
  else none

/-- Attribute map of a comment block (`{}`, `{bold:true}`, or those
plus a `link`). -/
structure Attrs where
  bold : Bool := false
  link : Option String := none
deriving Repr, DecidableEq

/-- One rich-text block sent to ClickUp. -/
structure CommentBlock where
  text : String
  attributes : Attrs := {}
deriving Repr, DecidableEq

/-- A character allowed in the `[^\s)]+` URL body. -/
def urlChar (c : Char) : Bool :=
  !jsWhitespace c && c ≠ ')'

/-- Match of the link regex `\[([^\]]+)\]\((https?:\/\/[^\s)]+)\)`
anchored at the head of the input: returns (label, url, total length
of the matched text).  The two greedy classes cannot contain their
closing delimiter, so backtracking never changes the outcome; the
match length is `1 + label + 1 + 1 + scheme + urlBody + 1`, always
positive. -/
def tryLinkAt : List Char → Option (List Char × List Char × Nat)
  | '[' :: cs =>
    let label := cs.takeWhile (fun c => c ≠ ']')
    (match cs.dropWhile (fun c => c ≠ ']') with
     | ']' :: '(' :: r2 =>
       if label.isEmpty then none
       else
         (match
            (if charsLeadWith "https://".toList r2 then some ("https://".toList, r2.drop 8)
             else if charsLeadWith "http://".toList r2 then some ("http://".toList, r2.drop 7)
             else none) with
          | none => none
          | some (scheme, r3) =>
            let uchars := r3.takeWhile urlChar
            if uchars.isEmpty then none
            else
              (match r3.dropWhile urlChar with
               | ')' :: _ => some (label, scheme ++ uchars,
                   label.length + scheme.length + uchars.length + 4)
               | _ => none))
     | _ => none)
  | _ => none

/-- The `linkRegex.exec` loop of `markdownToClickUpComment`: `pre` is
the text accumulated since `lastIndex`.  On a match, the pre-text (if
nonempty) becomes a plain block, the label becomes a link block, and
scanning resumes after the match; at the end a nonempty trailing
segment becomes a final plain block.  `fuel` makes the recursion
structural: every step consumes at least one character (a match has
positive length), so with `fuel = cs.length` the fuel-exhausted case
is unreachable. -/
def scanLinksGo (attrs : Attrs) : Nat → List Char → List Char → List CommentBlock
  | _, pre, [] => if pre.isEmpty then [] else [{ text := String.mk pre, attributes := attrs }]
  | 0, pre, _ :: _ => if pre.isEmpty then [] else [{ text := String.mk pre, attributes := attrs }]
  | fuel + 1, pre, c :: rest =>
    match tryLinkAt (c :: rest) with
    | some (label, url, matchLen) =>
      (if pre.isEmpty then [] else [{ text := String.mk pre, attributes := attrs }])
        ++ [{ text := String.mk label,
              attributes := { attrs with link := some (String.mk url) } }]
        ++ scanLinksGo attrs fuel [] (rest.drop (matchLen - 1))
    | none => scanLinksGo attrs fuel (pre ++ [c]) rest

/-- The link-scan loop at its full fuel. -/
def scanLinksAux (attrs : Attrs) (pre cs : List Char) : List CommentBlock :=
  scanLinksGo attrs cs.length pre cs

/-- Is there a link-regex match anywhere in the line? -/
def hasLink : List Char → Bool
  | [] => false
  | c :: rest => (tryLinkAt (c :: rest)).isSome || hasLink rest

/-- Conversion of one line (the body of the `lines.forEach` callback,
minus the inter-line newline block): unescape, strip a heading marker
into a bold attribute, then split the line at link spans. -/
def markdownLineBlocks (line : List Char) : List CommentBlock :=
  let workingLine := unescapeChars line
  let (content, attrs) : List Char × Attrs :=
    match headingStrip workingLine with
    | some stripped => (stripped, { bold := true })
    | none => (workingLine, {})
  if content.isEmpty then [{ text := "", attributes := attrs }]
  else scanLinksAux attrs [] content

/-- `markdown.split('\n')`. -/
def splitLines : List Char → List (List Char)
  | [] => [[]]
  | '\n' :: rest => [] :: splitLines rest
  | c :: rest =>
    match splitLines rest with
    | g :: gs => (c :: g) :: gs
    | [] => [[c]]

/-- Per-line assembly with an explicit newline block between lines
(not after the last). -/
def convertLines : List (List Char) → List CommentBlock
  | [] => []
  | [l] => markdownLineBlocks l
  | l :: rest => markdownLineBlocks l ++ ({ text := "\n", attributes := {} } :: convertLines rest)

/-- `markdownToClickUpComment`. -/
def markdownToClickUpComment (markdown : String) : List CommentBlock :=
  convertLines (splitLines markdown.toList)

/-! ## ClickUp / Groq service models (`clickup.ts`, `groq.ts`) -/

/-- The argument object the webhook handler passes to
`postTaskComment`.  `apiToken` is the route-level override the caller
supplies; the service implementation never reads it (see the C2
theorems). -/
structure ClickUpCommentRequest where
  apiToken : Option String := none
  taskId : String
  commentText : Option String := none
  comment : Option (List CommentBlock) := none
  notifyAll : Bool := false
deriving Repr, DecidableEq

/-- The argument object passed to `createTask` (again with the unused
caller-supplied `apiToken`). -/
structure ClickUpCreateTaskRequest where
  apiToken : Option String := none
  listId : String
  name : String
  description : Option String := none
  assignees : List Int := []
  status : Option String := none
  parentTaskId : Option String := none
deriving Repr, DecidableEq

/-- Parsed body of a ClickUp comment response (plus the `err` field of
failure bodies). -/
structure ClickUpCommentData where
  id : Option String := none
  err : Option String := none
deriving Repr, DecidableEq

/-- Parsed body of a ClickUp task response. -/
structure ClickUpTaskData where
  id : Option String := none
  err : Option String := none
deriving Repr, DecidableEq

/-- `ExtractedTaskItem` (`groq.ts`): fields already normalized by
`parseGroqJsonResponse` (so `confidence` is a finite number). -/
structure ExtractedTaskItem where
  task : String
  owner : String := "Unassigned"
  due_date : Option String := none
  priority : String := "medium"
  confidence : ℚ := 0
  evidence : String := ""
deriving Repr, DecidableEq

/-- `ExtractedTasksResult`. -/
structure ExtractedTasksResult where
  meeting_summary : String := ""
  tasks : List ExtractedTaskItem := []
deriving Repr, DecidableEq

/-- One attempted external call, recorded in order. -/
inductive ExtCall where
  | postComment (req : ClickUpCommentRequest)
  | groqExtract
  | createTask (req : ClickUpCreateTaskRequest)
deriving Repr, DecidableEq

/-- Responses of the remote services for one request: `commentHttp`
and `taskHttp` model `httpRequest` (transport error, or status code
plus parsed body) and receive the Authorization token the service
sends; `taskHttp` is indexed by the order of the `createTask` calls
(0 = parent, then one per subtask).  `groq` collapses the Groq
chat-completion call together with its response parsing. -/
structure Oracle where
  commentHttp : String → Except String (Nat × ClickUpCommentData)
  taskHttp : Nat → String → Except String (Nat × ClickUpTaskData)
  groq : Except String ExtractedTasksResult

/-- The part of `postTaskComment` after the token check:
`clickUpApiToken` is the Authorization value actually sent. -/
def commentHttpStage (http : String → Except String (Nat × ClickUpCommentData))
    (clickUpApiToken : String) (requestPayload : ClickUpCommentRequest) :
    List ExtCall × Except String ClickUpCommentData :=
  if (strTruthy requestPayload.commentText).isNone ∧ (requestPayload.comment.getD []).isEmpty then
    ([], .error "Either commentText or comment must be provided")
  else
    ([.postComment requestPayload],
     match http clickUpApiToken with
     | .error e => .error e
     | .ok (statusCode, data) =>
       if statusCode < 200 ∨ 300 ≤ statusCode then
         .error ("ClickUp API error (" ++ toString statusCode ++ "): "
           ++ (strTruthy data.err).getD "Unknown error")
       else .ok data)

/-- `postTaskComment` (`clickup.ts` lines 103–148): requires the
*global* `CLICKUP_API_TOKEN` (the request's `apiToken` is ignored),
rejects an empty comment, sends the request, and surfaces non-2xx
responses as errors.  Returns the calls attempted and the outcome. -/
def postTaskComment (env : Env) (http : String → Except String (Nat × ClickUpCommentData))
    (requestPayload : ClickUpCommentRequest) :
    List ExtCall × Except String ClickUpCommentData :=
  match strTruthy env.clickupApiToken with
  | none => ([], .error "Missing CLICKUP_API_TOKEN environment variable")
  | some clickUpApiToken => commentHttpStage http clickUpApiToken requestPayload

/-- The part of `createTask` after the token check. -/
def taskHttpStage (http : String → Except String (Nat × ClickUpTaskData))
    (clickUpApiToken : String) (requestPayload : ClickUpCreateTaskRequest) :
    List ExtCall × Except String ClickUpTaskData :=
  ([.createTask requestPayload],
   match http clickUpApiToken with
   | .error e => .error e
   | .ok (statusCode, data) =>
     if statusCode < 200 ∨ 300 ≤ statusCode then
       .error ("ClickUp API error (" ++ toString statusCode ++ "): "
         ++ (strTruthy data.err).getD "Unknown error")
     else .ok data)

/-- `createTask` (`clickup.ts` lines 150–203); same token handling as
`postTaskComment`. -/
def createTask (env : Env) (http : String → Except String (Nat × ClickUpTaskData))
    (requestPayload : ClickUpCreateTaskRequest) :
    List ExtCall × Except String ClickUpTaskData :=
  match strTruthy env.clickupApiToken with
  | none => ([], .error "Missing CLICKUP_API_TOKEN environment variable")
  | some clickUpApiToken => taskHttpStage http clickUpApiToken requestPayload

/-- `buildTranscriptText` (`groq.ts`): empty string when there are no
entries (this gates the extraction call). -/
def buildTranscriptTextGroq (p : FathomWebhookPayload) : String :=
  match p.transcript with
  | none => ""
  | some [] => ""
  | some entries =>
    String.intercalate "\n" (entries.map (fun entry =>
      "[" ++ (strTruthy entry.timestamp).getD "00:00:00" ++ "] "
        ++ (strTruthy (entry.speaker.bind (·.display_name))).getD "Unknown" ++ ": "
        ++ entry.text.getD ""))

/-- `extractTasksFromTranscript`: resolves to `null` (no call) without
a Groq key or transcript text, otherwise performs one extraction call. -/
def extractTasksFromTranscript (env : Env) (oracle : Oracle) (p : FathomWebhookPayload) :
    List ExtCall × Except String (Option ExtractedTasksResult) :=
  match strTruthy (env.groqApiKey.map trimJs) with
  | none => ([], .ok none)
  | some _ =>
    if buildTranscriptTextGroq p = "" then ([], .ok none)
    else
      ([.groqExtract],
       match oracle.groq with
       | .ok r => .ok (some r)
       | .error e => .error e)

theorem postTaskComment_with_token {env : Env} {tok : String}
    (htok : strTruthy env.clickupApiToken = some tok)
    (http : String → Except String (Nat × ClickUpCommentData)) (req : ClickUpCommentRequest) :
    postTaskComment env http req = commentHttpStage http tok req := by
  unfold postTaskComment
  rw [htok]

theorem createTask_with_token {env : Env} {tok : String}
    (htok : strTruthy env.clickupApiToken = some tok)
    (http : String → Except String (Nat × ClickUpTaskData)) (req : ClickUpCreateTaskRequest) :
    createTask env http req = taskHttpStage http tok req := by
  unfold createTask
  rw [htok]

/-! ## Task orchestration (`createMeetingTasksInClickUp`, lines 404–481) -/

/-- Result record of `createMeetingTasksInClickUp`. -/
structure TaskCreationSummary where
  mainTaskId : Option String
  createdSubtasksCount : Nat
  eligibleSubtasksCount : Nat
deriving Repr, DecidableEq

/-- The comment request built in the handler. -/
def mkCommentRequest (route : ResolvedMeetingRoute) (p : FathomWebhookPayload) :
    ClickUpCommentRequest :=
  { apiToken := route.clickupApiToken
    taskId := route.commentTaskId
    comment := some (markdownToClickUpComment (buildClickUpComment p))
    notifyAll := false }

/-- The parent-task request of `createMeetingTasksInClickUp`. -/
def mkParentTaskRequest (env : Env) (p : FathomWebhookPayload) (route : ResolvedMeetingRoute)
    (extracted : ExtractedTasksResult) (listId : String) : ClickUpCreateTaskRequest :=
  { apiToken := route.clickupApiToken
    listId := listId
    name := buildMainMeetingTaskName p
    description := some (buildMainTaskDescription env p extracted.tasks.length)
    assignees := resolveAssigneeIdsForRoute env route
    status := some (resolveTaskStatusForRoute env route) }

/-- One subtask request. -/
def mkSubtaskRequest (env : Env) (route : ResolvedMeetingRoute) (listId parentTaskId : String)
    (item : ExtractedTaskItem) : ClickUpCreateTaskRequest :=
  { apiToken := route.clickupApiToken
    listId := listId
    parentTaskId := some parentTaskId
    name := item.task
    description := some (buildSubtaskDescription item.evidence item.confidence)
    assignees := resolveAssigneeIdsForRoute env route
    status := some (resolveTaskStatusForRoute env route) }

/-- The `for (const taskItem of selectedTasks)` loop: every item is
attempted; a failed creation is logged and skipped (the count only
advances on success).  `i` is the oracle index of the next call. -/
def createSubtasksLoop (env : Env) (oracle : Oracle) (route : ResolvedMeetingRoute)
    (listId parentTaskId : String) : Nat → List ExtractedTaskItem → List ExtCall × Nat
  | _, [] => ([], 0)
  | i, taskItem :: rest =>
    let r := createTask env (oracle.taskHttp i) (mkSubtaskRequest env route listId parentTaskId taskItem)
    let rec' := createSubtasksLoop env oracle route listId parentTaskId (i + 1) rest
    (r.1 ++ rec'.1, (match r.2 with | .ok _ => 1 | .error _ => 0) + rec'.2)

/-- `createMeetingTasksInClickUp`: skips (successfully, with zero
counts) when task creation is disabled or no list id resolves; creates
the parent task, fails when no parent id comes back, then attempts all
subtasks. -/
def createMeetingTasksInClickUp (env : Env) (oracle : Oracle) (p : FathomWebhookPayload)
    (route : ResolvedMeetingRoute) (extracted : ExtractedTasksResult) :
    List ExtCall × Except String TaskCreationSummary :=
  if !isTaskCreationEnabledForRoute env route then
    ([], .ok { mainTaskId := none, createdSubtasksCount := 0, eligibleSubtasksCount := 0 })
  else
    match resolveTaskCreationListId env route with
    | none => ([], .ok { mainTaskId := none, createdSubtasksCount := 0, eligibleSubtasksCount := 0 })
    | some listId =>
      let parent := createTask env (oracle.taskHttp 0) (mkParentTaskRequest env p route extracted listId)
      match parent.2 with
      | .error e => (parent.1, .error e)
      | .ok parentTask =>
        match strTruthy parentTask.id with
        | none => (parent.1, .error "ClickUp did not return parent task id")
        | some parentTaskId =>
          let subs := createSubtasksLoop env oracle route listId parentTaskId 1 extracted.tasks
          (parent.1 ++ subs.1,
           .ok { mainTaskId := some parentTaskId
                 createdSubtasksCount := subs.2
                 eligibleSubtasksCount := extracted.tasks.length })

/-! ## The webhook handler (`fathomWebhookHandler`, lines 546–693) -/

/-- The JSON body of the handler's single response; absent keys are
`none`.  (`receivedAt`, a wall-clock string, is not modelled.) -/
structure ResponseBody where
  success : Option Bool := none
  error : Option String := none
  postedToClickUp : Option Bool := none
  message : Option String := none
  meetingTitle : Option String := none
  routeName : Option String := none
  routeTaskId : Option String := none
  routeMatchedKeywords : Option (List String) := none
  clickUpCommentId : Option (Option String) := none
  extractedTasksCount : Option Nat := none
  createdMainTaskId : Option (Option String) := none
  eligibleSubtasksCount : Option Nat := none
  createdSubtasksCount : Option Nat := none
deriving Repr, DecidableEq

/-- The single HTTP response of one handler invocation. -/
structure HandlerResponse where
  status : Nat
  body : ResponseBody
deriving Repr, DecidableEq

/-- The final 200 acknowledgement, with the result variables as they
stand when the response is sent. -/
def ok200 (route : ResolvedMeetingRoute) (comment : ClickUpCommentData)
    (extractedTasksCount : Nat) (createdMainTaskId : Option String)
    (eligibleSubtasksCount createdSubtasksCount : Nat) : HandlerResponse :=
  { status := 200
    body := {
      success := some true
      postedToClickUp := some true
      routeName := some route.name
      routeTaskId := some route.commentTaskId
      routeMatchedKeywords := some route.matchedKeywords
      clickUpCommentId := some (strTruthy comment.id)
      extractedTasksCount := some extractedTasksCount
      createdMainTaskId := some createdMainTaskId
      eligibleSubtasksCount := some eligibleSubtasksCount
      createdSubtasksCount := some createdSubtasksCount
      message := some "Webhook received and ClickUp comment added" } }

/-- `fathomWebhookHandler`: returns the external calls attempted (in
order) and the one response sent.  The outer `try/catch` turns a
comment-post failure into a 500; extraction and task-creation failures
are isolated and leave their result fields at their zero initial
values. -/
def fathomWebhookHandler (env : Env) (oracle : Oracle) (payload : FathomWebhookPayload) :
    List ExtCall × HandlerResponse :=
  let meetingTitle := (strTruthy payload.meeting_title).getD ((strTruthy payload.title).getD "Untitled Meeting")
  if payload.keysLength = 0 then
    ([], { status := 400, body := { error := some "Empty payload" } })
  else
    match resolveClickUpRoute env payload with
    | none =>
      ([], { status := 202
             body := { success := some true
                       postedToClickUp := some false
                       message := some "Webhook received but no ClickUp mapping matched this meeting"
                       meetingTitle := some meetingTitle } })
    | some resolvedRoute =>
      let commentStage := postTaskComment env oracle.commentHttp (mkCommentRequest resolvedRoute payload)
      match commentStage.2 with
      | .error _ =>
        (commentStage.1,
         { status := 500, body := { success := some false, error := some "Internal server error" } })
      | .ok clickUpComment =>
        let extractStage := extractTasksFromTranscript env oracle payload
        match extractStage.2 with
        | .error _ =>
          (commentStage.1 ++ extractStage.1, ok200 resolvedRoute clickUpComment 0 none 0 0)
        | .ok none =>
          (commentStage.1 ++ extractStage.1, ok200 resolvedRoute clickUpComment 0 none 0 0)
        | .ok (some extracted) =>
          let taskStage := createMeetingTasksInClickUp env oracle payload resolvedRoute extracted
          match taskStage.2 with
          | .ok summary =>
            (commentStage.1 ++ extractStage.1 ++ taskStage.1,
             ok200 resolvedRoute clickUpComment extracted.tasks.length summary.mainTaskId
               summary.eligibleSubtasksCount summary.createdSubtasksCount)
          | .error _ =>
            (commentStage.1 ++ extractStage.1 ++ taskStage.1,
             ok200 resolvedRoute clickUpComment extracted.tasks.length none 0 0)

/-! ## Helper lemmas -/

theorem string_mk_toList (s : String) : String.mk s.toList = s := rfl

theorem clamp01_nonneg (q : ℚ) : 0 ≤ clamp01 q := le_max_left 0 _

theorem clamp01_le_one (q : ℚ) : clamp01 q ≤ 1 :=
  max_le (by norm_num) (min_le_left 1 q)

/-! ## C7: confidence thresholds always land in [0, 1] -/

/-- C7.  For every environment (hence for every
`GROQ_TASK_CONFIDENCE_THRESHOLD` string, including non-numeric and
out-of-range ones, and the unset case) and for every resolved route
(hence for every route-level `confidenceThreshold` number including
NaN and infinities), the effective confidence threshold is in the
closed interval `[0, 1]`; with nothing configured at all, it is the
terminal default `0.5`. -/
theorem confidence_threshold_always_in_unit_interval :
    (∀ (env : Env) (route : ResolvedMeetingRoute),
      0 ≤ resolveConfidenceThresholdForRoute env route
        ∧ resolveConfidenceThresholdForRoute env route ≤ 1)
    ∧ parseGlobalConfidenceThreshold {} = mkRat 1 2 := by
  constructor
  · intro env route
    have hglobal : 0 ≤ parseGlobalConfidenceThreshold env
        ∧ parseGlobalConfidenceThreshold env ≤ 1 := by
      unfold parseGlobalConfidenceThreshold
      rcases jsStrToNumber ((strTruthy env.groqTaskConfidenceThreshold).getD "0.5") with _ | b | q
      · norm_num
      · norm_num
      · exact ⟨clamp01_nonneg q, clamp01_le_one q⟩
    unfold resolveConfidenceThresholdForRoute
    rcases route.taskRouting.bind (·.confidenceThreshold) with _ | ⟨_ | b | q⟩
    · exact hglobal
    · exact hglobal
    · exact hglobal
    · exact ⟨clamp01_nonneg q, clamp01_le_one q⟩
  · have h05 : jsStrToNumber "0.5" = JsNum.fin (mkRat 1 2) := by decide
    unfold parseGlobalConfidenceThreshold
    rw [show (strTruthy (Env.groqTaskConfidenceThreshold {})).getD "0.5" = "0.5" from rfl, h05]
    show clamp01 (mkRat 1 2) = mkRat 1 2
    have hv : mkRat 1 2 = (1 : ℚ) / 2 := by rw [Rat.mkRat_eq_div]; norm_num
    unfold clamp01
    rw [hv, min_eq_right (by norm_num : (1 : ℚ) / 2 ≤ 1),
        max_eq_right (by norm_num : (0 : ℚ) ≤ 1 / 2)]

/-! ## C2: the services only ever use the global token (code bug) -/

/-- Environment with no global `CLICKUP_API_TOKEN`. -/
def envNoGlobalToken : Env := {}

/-- A comment request carrying a route-level override token and a
nonempty comment. -/
def commentReqWithRouteToken : ClickUpCommentRequest :=
  { apiToken := some "route-token"
    taskId := "T1"
    comment := some [{ text := "hi" }] }

/-- A task request carrying a route-level override token. -/
def taskReqWithRouteToken : ClickUpCreateTaskRequest :=
  { apiToken := some "route-token"
    listId := "L1"
    name := "task" }

/-- A responder that would answer any request; the calls below fail
before reaching it. -/
def neverCalledCommentHttp : String → Except String (Nat × ClickUpCommentData) :=
  fun _ => .ok (200, { id := some "c" })

/-- Task-side responder, likewise never reached. -/
def neverCalledTaskHttp : String → Except String (Nat × ClickUpTaskData) :=
  fun _ => .ok (200, { id := some "t" })

/-- C2 (failing input).  With the shared `CLICKUP_API_TOKEN` absent,
both `postTaskComment` and `createTask` throw `Missing
CLICKUP_API_TOKEN environment variable` without attempting any
external call, even though the caller passed a route-level token: the
service implementations read only `process.env.CLICKUP_API_TOKEN` and
never the request's `apiToken`.  Additionally, whenever the global
token is present, the Authorization value the service sends is exactly
that global token, for every request (so a route override is never
used). -/
theorem clickup_calls_ignore_route_token :
    postTaskComment envNoGlobalToken neverCalledCommentHttp commentReqWithRouteToken
        = ([], .error "Missing CLICKUP_API_TOKEN environment variable")
    ∧ createTask envNoGlobalToken neverCalledTaskHttp taskReqWithRouteToken
        = ([], .error "Missing CLICKUP_API_TOKEN environment variable")
    ∧ (∀ (env : Env) (tok : String)
        (http : String → Except String (Nat × ClickUpCommentData))
        (req : ClickUpCommentRequest),
        strTruthy env.clickupApiToken = some tok →
        postTaskComment env http req = commentHttpStage http tok req)
    ∧ (∀ (env : Env) (tok : String)
        (http : String → Except String (Nat × ClickUpTaskData))
        (req : ClickUpCreateTaskRequest),
        strTruthy env.clickupApiToken = some tok →
        createTask env http req = taskHttpStage http tok req) := by
  exact ⟨rfl, rfl,
    fun env tok http req htok => postTaskComment_with_token htok http req,
    fun env tok http req htok => createTask_with_token htok http req⟩

/-! ## C8: empty strings in keyword / match sets (corrected) -/

/-- Routing configuration whose single route has the empty string as a
keyword. -/
def envEmptyKeyword : Env :=
  { routingJson := some (some (.jarr [.jobj
      [("name", .jstr "r"), ("commentTaskId", .jstr "t"), ("keywords", .jarr [.jstr ""])]])) }

/-- A payload with a nonempty title (so a nonempty matching field
exists). -/
def payloadHello : FathomWebhookPayload := { title := some "hello" }

/-- The route `parseMeetingRoutes` produces from `envEmptyKeyword`. -/
def routeEmptyKeyword : ClickUpMeetingRoute :=
  { name := "r", commentTaskId := "t", keywords := [""] }

/-- C8 (counterexample).  An empty-string keyword survives
`parseMeetingRoutes` (the parser filters non-strings but not empty
strings), and — because the empty string is a substring of every
field — the resolved route's `matchedKeywords` then contains the empty
string. -/
theorem empty_keyword_survives_parsing_and_matching :
    (∃ route ∈ parseMeetingRoutes envEmptyKeyword, "" ∈ route.keywords)
    ∧ (∃ res, resolveClickUpRoute envEmptyKeyword payloadHello = some res
        ∧ "" ∈ res.matchedKeywords) := by
  constructor
  · exact ⟨routeEmptyKeyword, by decide, by decide⟩
  · exact ⟨{ routeEmptyKeyword with matchedKeywords := [""] }, by decide, by decide⟩

/-- C8 (amended).  The normalized matching-field list never contains
an empty string (`.filter(Boolean)` drops them); the keyword and
matched-keyword sets, however, can contain empty strings (see the
counterexample). -/
theorem matching_fields_never_empty_string :
    ∀ p : FathomWebhookPayload, "" ∉ matchingFieldsFor p := by
  intro p h
  unfold matchingFieldsFor at h
  rw [List.mem_filter] at h
  simp at h

/-! ## C6: duration derivation mixes the timestamp pairs (corrected) -/

/-- The duration rule exactly as the claim states it: use
(recording end − recording start) when **both** recording timestamps
are present, else (scheduled end − scheduled start); never mix the
pairs. -/
def claimedDurationSeconds (p : FathomWebhookPayload) : Option Int :=
  match parseIsoDate p.recording_start_time, parseIsoDate p.recording_end_time with
  | some s, some e =>
    let duration := (e - s) / 1000
    if 0 < duration then some duration else none
  | _, _ =>
    match parseIsoDate p.scheduled_start_time, parseIsoDate p.scheduled_end_time with
    | some s, some e =>
      let duration := (e - s) / 1000
      if 0 < duration then some duration else none
    | _, _ => none

/-- A payload with a recording start, no recording end, and a full
scheduled pair. -/
def payloadMixedPairs : FathomWebhookPayload :=
  { recording_start_time := some { ms := some 0 }
    scheduled_start_time := some { ms := some 60000 }
    scheduled_end_time := some { ms := some 120000 } }

/-- C6 (counterexample).  With recording start 0 ms, no recording end,
and scheduled 60 000 ms → 120 000 ms, the code combines the recording
start with the scheduled end and reports 120 s (`02m`), while the
claimed rule (scheduled pair only) gives 60 s (`01m`). -/
theorem duration_mixes_recording_and_scheduled :
    getMeetingDurationSeconds payloadMixedPairs = some 120
    ∧ claimedDurationSeconds payloadMixedPairs = some 60
    ∧ formatMeetingDuration payloadMixedPairs = "02m"
    ∧ getMeetingDurationSeconds payloadMixedPairs ≠ claimedDurationSeconds payloadMixedPairs := by
  refine ⟨rfl, rfl, rfl, ?_⟩
  decide

/-- The duration rule as amended: start and end are coalesced
*independently* — start is the recording start if parseable, else the
scheduled start; end is the recording end if parseable, else the
scheduled end. -/
def amendedDurationSeconds (p : FathomWebhookPayload) : Option Int :=
  match (parseIsoDate p.recording_start_time).or (parseIsoDate p.scheduled_start_time),
        (parseIsoDate p.recording_end_time).or (parseIsoDate p.scheduled_end_time) with
  | some s, some e =>
    let duration := (e - s) / 1000
    if 0 < duration then some duration else none
  | _, _ => none

/-- Rendering rule of the claim: `N/A` for a missing duration,
`HHh MMm` when at least one hour, else `MMm` (zero-padded). -/
def claimedDurationRender : Option Int → String
  | none => "N/A"
  | some d =>
    if 3600 ≤ d then
      padStart2 (toString (d / 3600)) ++ "h "
        ++ padStart2 (toString (d % 3600 / 60)) ++ "m"
    else padStart2 (toString (d / 60)) ++ "m"

theorem getMeetingDurationSeconds_pos {p : FathomWebhookPayload} {d : Int}
    (h : getMeetingDurationSeconds p = some d) : 0 < d := by
  unfold getMeetingDurationSeconds at h
  rcases h1 : (match parseIsoDate p.recording_start_time with
    | some s => some s
    | none => parseIsoDate p.scheduled_start_time) with _ | s <;> rw [h1] at h
  · simp at h
  · rcases h2 : (match parseIsoDate p.recording_end_time with
      | some e => some e
      | none => parseIsoDate p.scheduled_end_time) with _ | e <;> rw [h2] at h
    · simp at h
    · simp only [] at h
      split at h
      · exact (Option.some.injEq _ _ ▸ h) ▸ (by assumption)
      · simp at h

/-- C6 (amended).  The meeting duration is computed from the
independently coalesced start (recording start, else scheduled start)
and end (recording end, else scheduled end) as
`floor((end − start) / 1000)` seconds; a missing side or a
non-positive value renders `N/A`, and otherwise the rendering is
`HHh MMm` when the duration is at least one hour and `MMm`
otherwise. -/
theorem duration_amended_characterization :
    ∀ p : FathomWebhookPayload,
      getMeetingDurationSeconds p = amendedDurationSeconds p
      ∧ formatMeetingDuration p = claimedDurationRender (getMeetingDurationSeconds p) := by
  intro p
  constructor
  · unfold getMeetingDurationSeconds amendedDurationSeconds
    rcases parseIsoDate p.recording_start_time with _ | s <;>
      rcases parseIsoDate p.recording_end_time with _ | e <;> simp [Option.or]
  · rcases hd : getMeetingDurationSeconds p with _ | d
    · unfold formatMeetingDuration
      rw [hd]
      rfl
    · have hpos : 0 < d := getMeetingDurationSeconds_pos hd
      unfold formatMeetingDuration claimedDurationRender
      rw [hd]
      show (if d = 0 then "N/A"
            else if 0 < d / 3600 then
              padStart2 (toString (d / 3600)) ++ "h " ++ padStart2 (toString (d % 3600 / 60)) ++ "m"
            else padStart2 (toString (d % 3600 / 60)) ++ "m")
        = (if 3600 ≤ d then
            padStart2 (toString (d / 3600)) ++ "h " ++ padStart2 (toString (d % 3600 / 60)) ++ "m"
           else padStart2 (toString (d / 60)) ++ "m")
      rw [if_neg (show ¬ d = 0 by omega)]
      have hiff : 0 < d / 3600 ↔ 3600 ≤ d := by omega
      by_cases h36 : 3600 ≤ d
      · rw [if_pos (hiff.mpr h36), if_pos h36]
      · rw [if_neg (fun hcon => h36 (hiff.mp hcon)), if_neg h36]
        have hm : d % 3600 = d := by omega
        rw [hm]

/-! ## C9: a plain line converts to a single plain block -/

theorem unescapeChars_cons_of_ne {c : Char} (hc : c ≠ '\\') (rest : List Char) :
    unescapeChars (c :: rest) = c :: unescapeChars rest := by
  rw [unescapeChars.eq_def]
  split <;> simp_all

theorem hasEscapeSeq_cons_of_ne {c : Char} (hc : c ≠ '\\') (rest : List Char) :
    hasEscapeSeq (c :: rest) = hasEscapeSeq rest := by
  rw [hasEscapeSeq.eq_def]
  split <;> simp_all

theorem unescape_no_escape : ∀ {cs : List Char}, hasEscapeSeq cs = false →
    unescapeChars cs = cs := by
  intro cs
  induction cs using unescapeChars.induct with
  | case1 => intro _; rfl
  | case2 c rest hesc ih =>
    intro h
    rw [hasEscapeSeq] at h
    simp [hesc] at h
  | case3 c rest hesc ih =>
    intro h
    have h2 : hasEscapeSeq (c :: rest) = false := by
      rw [hasEscapeSeq] at h
      simp only [Bool.or_eq_false_iff] at h
      exact h.2
    show (if escapableChar c then c :: unescapeChars rest
          else '\\' :: unescapeChars (c :: rest)) = '\\' :: c :: rest
    simp only [hesc, Bool.false_eq_true, if_false]
    rw [ih h2]
  | case4 c rest hne ih =>
    intro h
    cases rest with
    | nil =>
      rw [unescapeChars.eq_def]
      split <;> simp_all [unescapeChars]
    | cons c2 r2 =>
      have hc : c ≠ '\\' := fun hcon => hne c2 r2 hcon rfl
      rw [unescapeChars_cons_of_ne hc,
          ih (by rw [hasEscapeSeq_cons_of_ne hc] at h; exact h)]

theorem splitLines_no_newline : ∀ {cs : List Char}, '\n' ∉ cs →
    splitLines cs = [cs] := by
  intro cs
  induction cs using splitLines.induct with
  | case1 => intro _; rfl
  | case2 rest ih =>
    intro h
    exact absurd (List.mem_cons_self _ _) h
  | case3 c rest hne g gs hrec ih =>
    intro h
    have hrest : '\n' ∉ rest := fun hm => h (List.mem_cons_of_mem _ hm)
    have hsr := ih hrest
    rw [splitLines.eq_def]
    split <;> simp_all
  | case4 c rest hne hrec ih =>
    intro h
    have hrest : '\n' ∉ rest := fun hm => h (List.mem_cons_of_mem _ hm)
    rw [ih hrest] at hrec
    simp at hrec

theorem scanLinksGo_no_link : ∀ (fuel : Nat) (cs : List Char), cs.length ≤ fuel →
    hasLink cs = false → ∀ (attrs : Attrs) (pre : List Char),
      scanLinksGo attrs fuel pre cs
        = if (pre ++ cs).isEmpty then []
          else [{ text := String.mk (pre ++ cs), attributes := attrs }] := by
  intro fuel
  induction fuel with
  | zero =>
    intro cs hlen _ attrs pre
    have : cs = [] := List.length_eq_zero.mp (Nat.le_zero.mp hlen)
    subst this
    cases pre <;> simp [scanLinksGo]
  | succ n ih =>
    intro cs hlen hnolink attrs pre
    cases cs with
    | nil => cases pre <;> simp [scanLinksGo]
    | cons c rest =>
      rw [hasLink] at hnolink
      simp only [Bool.or_eq_false_iff] at hnolink
      rw [scanLinksGo]
      split
      · exfalso
        simp_all
      · rw [ih rest (by simpa using hlen) hnolink.2 attrs (pre ++ [c])]
        simp

/-- The trailing-block rule of one line scan: a nonempty line with no
link span becomes exactly one block with the line's text. -/
theorem scanLinksAux_no_link {cs : List Char} (h : hasLink cs = false) (attrs : Attrs) :
    scanLinksAux attrs [] cs
      = if cs.isEmpty then [] else [{ text := String.mk cs, attributes := attrs }] := by
  unfold scanLinksAux
  rw [scanLinksGo_no_link cs.length cs (Nat.le_refl _) h attrs []]
  simp

/-- C9.  A single-line input (no newline) containing no backslash
escape, no heading marker, and no link-regex match converts to exactly
one comment block whose attribute map is empty and whose text is the
line itself, with no trailing newline block. -/
theorem plain_line_converts_to_single_plain_block (line : String)
    (h1 : '\n' ∉ line.toList)
    (h2 : hasEscapeSeq line.toList = false)
    (h3 : headingStrip line.toList = none)
    (h4 : hasLink line.toList = false) :
    markdownToClickUpComment line = [{ text := line, attributes := {} }] := by
  unfold markdownToClickUpComment
  rw [splitLines_no_newline h1]
  show markdownLineBlocks line.toList = _
  unfold markdownLineBlocks
  rw [unescape_no_escape h2]
  show (match (match headingStrip line.toList with
               | some stripped => (stripped, ({ bold := true } : Attrs))
               | none => (line.toList, ({} : Attrs))) with
        | (content, attrs) =>
          if content.isEmpty then [({ text := "", attributes := attrs } : CommentBlock)]
          else scanLinksAux attrs [] content) = _
  rw [h3]
  show (if line.toList.isEmpty then [({ text := "", attributes := {} } : CommentBlock)]
        else scanLinksAux {} [] line.toList) = _
  by_cases hemp : line.toList.isEmpty
  · rw [if_pos hemp]
    have : line = "" := by
      have := List.isEmpty_iff.mp hemp
      calc line = String.mk line.toList := (string_mk_toList line).symm
        _ = String.mk [] := by rw [this]
    rw [this]
  · rw [if_neg hemp, scanLinksAux_no_link h4, if_neg hemp, string_mk_toList]

/-- C9 witness: the fixture line `hello world.` satisfies every
hypothesis and yields one plain block. -/
theorem plain_line_witness :
    markdownToClickUpComment "hello world." = [{ text := "hello world.", attributes := {} }] :=
  plain_line_converts_to_single_plain_block "hello world."
    (by decide) (by decide) (by decide) (by decide)

/-! ## C3: a comment-post failure aborts the request -/

theorem postTaskComment_trace_only_comment (env : Env)
    (http : String → Except String (Nat × ClickUpCommentData)) (req : ClickUpCommentRequest) :
    ∀ call ∈ (postTaskComment env http req).1, call = ExtCall.postComment req := by
  intro call hmem
  rcases htok : strTruthy env.clickupApiToken with _ | tok
  · unfold postTaskComment at hmem
    rw [htok] at hmem
    simp at hmem
  · rw [postTaskComment_with_token htok] at hmem
    unfold commentHttpStage at hmem
    split at hmem
    · simp at hmem
    · simp at hmem
      exact hmem

/-- C3.  Once a route resolved, if the comment post fails (transport
error, non-2xx, or a missing token), the handler answers 500 with
`success:false`, and the only external calls of the whole request are
the comment-post calls: no extraction call and no task creation is
ever attempted. -/
theorem comment_failure_aborts_request (env : Env) (oracle : Oracle)
    (p : FathomWebhookPayload) (route : ResolvedMeetingRoute) (e : String)
    (h0 : p.keysLength ≠ 0)
    (h1 : resolveClickUpRoute env p = some route)
    (h2 : (postTaskComment env oracle.commentHttp (mkCommentRequest route p)).2
            = .error e) :
    (fathomWebhookHandler env oracle p).2.status = 500
    ∧ (fathomWebhookHandler env oracle p).2.body.success = some false
    ∧ (fathomWebhookHandler env oracle p).1
        = (postTaskComment env oracle.commentHttp (mkCommentRequest route p)).1
    ∧ ∀ call ∈ (fathomWebhookHandler env oracle p).1,
        call = ExtCall.postComment (mkCommentRequest route p) := by
  have hhandler : fathomWebhookHandler env oracle p
      = ((postTaskComment env oracle.commentHttp (mkCommentRequest route p)).1,
         { status := 500,
           body := { success := some false, error := some "Internal server error" } }) := by
    unfold fathomWebhookHandler
    rw [if_neg h0, h1]
    simp only [h2]
  rw [hhandler]
  exact ⟨rfl, rfl, rfl, postTaskComment_trace_only_comment env oracle.commentHttp _⟩

deriving instance DecidableEq for Except

/-- Environment with the global ClickUp token, a default task id, and
a Groq key. -/
def envHappy : Env :=
  { clickupApiToken := some "tok"
    clickupDefaultTaskId := some "DEFAULT1"
    groqApiKey := some "gk" }

/-- Oracle whose comment call fails with a transport error. -/
def oracleCommentFail : Oracle :=
  { commentHttp := fun _ => .error "ECONNRESET"
    taskHttp := fun _ _ => .error "down"
    groq := .error "down" }

/-- A minimal nonempty payload. -/
def payloadHi : FathomWebhookPayload := { title := some "Hi" }

/-- C3 witness: a transport error on the comment call yields a 500 and
a trace consisting of the comment attempt only. -/
theorem comment_failure_witness :
    (fathomWebhookHandler envHappy oracleCommentFail payloadHi).2.status = 500
    ∧ (fathomWebhookHandler envHappy oracleCommentFail payloadHi).2.body.success = some false
    ∧ (fathomWebhookHandler envHappy oracleCommentFail payloadHi).1
        = (postTaskComment envHappy oracleCommentFail.commentHttp
            (mkCommentRequest (defaultRouteFor "DEFAULT1") payloadHi)).1
    ∧ ∀ call ∈ (fathomWebhookHandler envHappy oracleCommentFail payloadHi).1,
        call = ExtCall.postComment (mkCommentRequest (defaultRouteFor "DEFAULT1") payloadHi) :=
  comment_failure_aborts_request envHappy oracleCommentFail payloadHi
    (defaultRouteFor "DEFAULT1") "ECONNRESET"
    (by decide) (by decide) (by decide)

/-! ## C5: an extraction failure is isolated -/

/-- C5.  When the comment has been posted and the extraction call then
fails, the request still completes with a 200 success response whose
extraction-dependent fields are all zero/empty, and the posted
comment's id is still reported (nothing is undone). -/
theorem extraction_failure_is_isolated (env : Env) (oracle : Oracle)
    (p : FathomWebhookPayload) (route : ResolvedMeetingRoute)
    (comment : ClickUpCommentData) (e : String)
    (h0 : p.keysLength ≠ 0)
    (h1 : resolveClickUpRoute env p = some route)
    (h2 : (postTaskComment env oracle.commentHttp (mkCommentRequest route p)).2
            = .ok comment)
    (h3 : (extractTasksFromTranscript env oracle p).2 = .error e) :
    (fathomWebhookHandler env oracle p).2.status = 200
    ∧ (fathomWebhookHandler env oracle p).2.body.success = some true
    ∧ (fathomWebhookHandler env oracle p).2.body.extractedTasksCount = some 0
    ∧ (fathomWebhookHandler env oracle p).2.body.createdMainTaskId = some none
    ∧ (fathomWebhookHandler env oracle p).2.body.eligibleSubtasksCount = some 0
    ∧ (fathomWebhookHandler env oracle p).2.body.createdSubtasksCount = some 0
    ∧ (fathomWebhookHandler env oracle p).2.body.clickUpCommentId
        = some (strTruthy comment.id) := by
  have hhandler : fathomWebhookHandler env oracle p
      = ((postTaskComment env oracle.commentHttp (mkCommentRequest route p)).1
           ++ (extractTasksFromTranscript env oracle p).1,
         ok200 route comment 0 none 0 0) := by
    unfold fathomWebhookHandler
    rw [if_neg h0, h1]
    simp only [h2, h3]
  rw [hhandler]
  exact ⟨rfl, rfl, rfl, rfl, rfl, rfl, rfl⟩

/-- Oracle whose comment call succeeds and whose extraction call
fails. -/
def oracleExtractFail : Oracle :=
  { commentHttp := fun _ => .ok (200, { id := some "c1" })
    taskHttp := fun _ _ => .error "down"
    groq := .error "rate limited" }

/-- A payload carrying a transcript entry (so extraction is attempted
rather than skipped). -/
def payloadWithTranscript : FathomWebhookPayload :=
  { title := some "Hi"
    transcript := some [{ text := some "do the thing" }] }

/-- C5 witness: the extraction failure leaves a 200 response with zero
extraction fields and the posted comment id. -/
theorem extraction_failure_witness :
    (fathomWebhookHandler envHappy oracleExtractFail payloadWithTranscript).2.status = 200
    ∧ (fathomWebhookHandler envHappy oracleExtractFail payloadWithTranscript).2.body.success = some true
    ∧ (fathomWebhookHandler envHappy oracleExtractFail payloadWithTranscript).2.body.extractedTasksCount = some 0
    ∧ (fathomWebhookHandler envHappy oracleExtractFail payloadWithTranscript).2.body.createdMainTaskId = some none
    ∧ (fathomWebhookHandler envHappy oracleExtractFail payloadWithTranscript).2.body.eligibleSubtasksCount = some 0
    ∧ (fathomWebhookHandler envHappy oracleExtractFail payloadWithTranscript).2.body.createdSubtasksCount = some 0
    ∧ (fathomWebhookHandler envHappy oracleExtractFail payloadWithTranscript).2.body.clickUpCommentId
        = some (strTruthy (some "c1")) :=
  extraction_failure_is_isolated envHappy oracleExtractFail payloadWithTranscript
    (defaultRouteFor "DEFAULT1") { id := some "c1" } "rate limited"
    (by decide) (by decide) (by decide) (by decide)

/-! ## C10: every invocation sends exactly one well-formed response -/

/-- C10.  The handler (a function, so exactly one response per
invocation) always answers with status 200, 202, 400, or 500; the
body's `success` flag is `true` exactly for 200 and 202 (the 400 body
carries no success flag); and every 200 response carries all four
count/result fields, even when zero or null. -/
theorem handler_response_well_formed (env : Env) (oracle : Oracle)
    (p : FathomWebhookPayload) :
    ((fathomWebhookHandler env oracle p).2.status = 200
      ∨ (fathomWebhookHandler env oracle p).2.status = 202
      ∨ (fathomWebhookHandler env oracle p).2.status = 400
      ∨ (fathomWebhookHandler env oracle p).2.status = 500)
    ∧ ((fathomWebhookHandler env oracle p).2.body.success = some true
        ↔ ((fathomWebhookHandler env oracle p).2.status = 200
            ∨ (fathomWebhookHandler env oracle p).2.status = 202))
    ∧ ((fathomWebhookHandler env oracle p).2.status = 200 →
        ((fathomWebhookHandler env oracle p).2.body.extractedTasksCount.isSome
          ∧ (fathomWebhookHandler env oracle p).2.body.createdMainTaskId.isSome
          ∧ (fathomWebhookHandler env oracle p).2.body.eligibleSubtasksCount.isSome
          ∧ (fathomWebhookHandler env oracle p).2.body.createdSubtasksCount.isSome)) := by
  unfold fathomWebhookHandler
  by_cases h0 : p.keysLength = 0
  · rw [if_pos h0]
    exact ⟨by simp, by simp, by simp⟩
  · rw [if_neg h0]
    rcases hroute : resolveClickUpRoute env p with _ | route <;> (try simp only [hroute])
    · exact ⟨by simp, by simp, by simp⟩
    · rcases hc : (postTaskComment env oracle.commentHttp (mkCommentRequest route p)).2
          with e | comment <;> (try simp only [hc])
      · exact ⟨by simp, by simp, by simp⟩
      · rcases he : (extractTasksFromTranscript env oracle p).2 with e | extOpt <;> (try simp only [he])
        · exact ⟨by simp [ok200], by simp [ok200], by simp [ok200]⟩
        · rcases extOpt with _ | extracted
          · exact ⟨by simp [ok200], by simp [ok200], by simp [ok200]⟩
          · rcases ht : (createMeetingTasksInClickUp env oracle p route extracted).2
                with e | summary <;> (try simp only [ht])
            · exact ⟨by simp [ok200], by simp [ok200], by simp [ok200]⟩
            · exact ⟨by simp [ok200], by simp [ok200], by simp [ok200]⟩

/-- C10 witness: at a concrete 200-producing invocation the implied
field-presence part of the theorem applies. -/
theorem handler_response_witness :
    (fathomWebhookHandler envHappy oracleExtractFail payloadWithTranscript).2.body.extractedTasksCount.isSome
    ∧ (fathomWebhookHandler envHappy oracleExtractFail payloadWithTranscript).2.body.createdMainTaskId.isSome
    ∧ (fathomWebhookHandler envHappy oracleExtractFail payloadWithTranscript).2.body.eligibleSubtasksCount.isSome
    ∧ (fathomWebhookHandler envHappy oracleExtractFail payloadWithTranscript).2.body.createdSubtasksCount.isSome :=
  (handler_response_well_formed envHappy oracleExtractFail payloadWithTranscript).2.2
    (by decide)

/-! ## C4: all extracted items are attempted as subtasks -/

/-- The subtask name of a trace entry (`createTask` call with a
parent), if any. -/
def subtaskNameOf : ExtCall → Option String
  | .createTask req => if req.parentTaskId.isSome then some req.name else none
  | _ => none

/-- Is this trace entry a parent-task creation (a `createTask` call
without a parent id)? -/
def isParentTaskCall : ExtCall → Bool
  | .createTask req => req.parentTaskId.isNone
  | _ => false

theorem createTask_ok_token {env : Env}
    {http : String → Except String (Nat × ClickUpTaskData)} {req : ClickUpCreateTaskRequest}
    {resp : ClickUpTaskData} (h : (createTask env http req).2 = .ok resp) :
    ∃ tok, strTruthy env.clickupApiToken = some tok := by
  rcases htok : strTruthy env.clickupApiToken with _ | tok
  · unfold createTask at h
    rw [htok] at h
    simp at h
  · exact ⟨tok, rfl⟩

theorem createSubtasksLoop_spec (env : Env) (oracle : Oracle) (route : ResolvedMeetingRoute)
    (listId parentTaskId tok : String) (htok : strTruthy env.clickupApiToken = some tok) :
    ∀ (items : List ExtractedTaskItem) (i : Nat),
      (createSubtasksLoop env oracle route listId parentTaskId i items).2 ≤ items.length
      ∧ (createSubtasksLoop env oracle route listId parentTaskId i items).1.filterMap subtaskNameOf
          = items.map (fun item => item.task)
      ∧ (createSubtasksLoop env oracle route listId parentTaskId i items).1.countP isParentTaskCall
          = 0 := by
  intro items
  induction items with
  | nil =>
    intro i
    exact ⟨Nat.le_refl 0, rfl, rfl⟩
  | cons item rest ih =>
    intro i
    have hct := createTask_with_token htok (oracle.taskHttp i)
      (mkSubtaskRequest env route listId parentTaskId item)
    have hcount : ∀ x : Except String ClickUpTaskData,
        (match x with | Except.ok _ => (1 : Nat) | Except.error _ => 0) ≤ 1 := by
      intro x
      cases x <;> simp
    rw [createSubtasksLoop]
    simp only [hct, taskHttpStage, List.singleton_append]
    refine ⟨?_, ?_, ?_⟩
    · simp only [List.length_cons]
      exact Nat.le_trans (Nat.add_le_add (hcount _) (ih (i + 1)).1) (by omega)
    · rw [List.filterMap_cons]
      simp only [subtaskNameOf, mkSubtaskRequest, Option.isSome_some, if_pos]
      rw [(ih (i + 1)).2.1]
      rfl
    · rw [List.countP_cons]
      simp only [isParentTaskCall, mkSubtaskRequest, Option.isNone_some]
      rw [(ih (i + 1)).2.2]
      simp

/-- C4.  When task creation is enabled for the route, a list id
resolves, and the parent-task call returns an id, the orchestration
attempts exactly one parent creation and then one subtask creation per
extracted item — every item, in order, regardless of its confidence
and regardless of the individual call outcomes (so one subtask's
failure never prevents the remaining attempts) — and the returned
summary satisfies `mainTaskId = the parent id`,
`eligibleSubtasksCount = N`, and `createdSubtasksCount ≤ N`. -/
theorem all_extracted_items_attempted (env : Env) (oracle : Oracle)
    (p : FathomWebhookPayload) (route : ResolvedMeetingRoute)
    (extracted : ExtractedTasksResult) (listId : String)
    (presp : ClickUpTaskData) (pid : String)
    (h1 : isTaskCreationEnabledForRoute env route = true)
    (h2 : resolveTaskCreationListId env route = some listId)
    (h3 : (createTask env (oracle.taskHttp 0)
            (mkParentTaskRequest env p route extracted listId)).2 = .ok presp)
    (h4 : strTruthy presp.id = some pid) :
    ∃ summary : TaskCreationSummary,
      (createMeetingTasksInClickUp env oracle p route extracted).2 = .ok summary
      ∧ summary.mainTaskId = some pid
      ∧ summary.eligibleSubtasksCount = extracted.tasks.length
      ∧ summary.createdSubtasksCount ≤ extracted.tasks.length
      ∧ (createMeetingTasksInClickUp env oracle p route extracted).1.countP isParentTaskCall = 1
      ∧ (createMeetingTasksInClickUp env oracle p route extracted).1.filterMap subtaskNameOf
          = extracted.tasks.map (fun item => item.task) := by
  obtain ⟨tok, htok⟩ := createTask_ok_token h3
  have hloop := createSubtasksLoop_spec env oracle route listId pid tok htok extracted.tasks 1
  have hres : createMeetingTasksInClickUp env oracle p route extracted
      = ((createTask env (oracle.taskHttp 0) (mkParentTaskRequest env p route extracted listId)).1
          ++ (createSubtasksLoop env oracle route listId pid 1 extracted.tasks).1,
         .ok { mainTaskId := some pid
               createdSubtasksCount :=
                 (createSubtasksLoop env oracle route listId pid 1 extracted.tasks).2
               eligibleSubtasksCount := extracted.tasks.length }) := by
    unfold createMeetingTasksInClickUp
    rw [h1, h2]
    simp only [Bool.not_true, Bool.false_eq_true, if_false, h3, h4]
  have hptrace : (createTask env (oracle.taskHttp 0)
      (mkParentTaskRequest env p route extracted listId)).1
      = [ExtCall.createTask (mkParentTaskRequest env p route extracted listId)] := by
    rw [createTask_with_token htok]
    rfl
  refine ⟨_, by rw [hres], rfl, rfl, ?_, ?_, ?_⟩
  · exact hloop.1
  · rw [hres]
    simp only [hptrace, List.singleton_append, List.countP_cons]
    simp only [isParentTaskCall, mkParentTaskRequest, Option.isNone_none]
    rw [hloop.2.2]
    simp
  · rw [hres]
    simp only [hptrace, List.singleton_append, List.filterMap_cons]
    simp only [subtaskNameOf, mkParentTaskRequest, Option.isSome_none]
    rw [hloop.2.1]
    simp

/-- Environment enabling task creation with a global list id. -/
def envTasky : Env :=
  { clickupApiToken := some "tok"
    clickupTaskCreationListId := some "L1" }

/-- A route with no task-routing overrides. -/
def routeTasky : ResolvedMeetingRoute := defaultRouteFor "T1"

/-- Oracle: parent call succeeds with id `P`; the second of the three
subtask calls fails. -/
def oracleTasky : Oracle :=
  { commentHttp := fun _ => .ok (200, { id := some "c1" })
    taskHttp := fun i _ =>
      if i = 0 then .ok (200, { id := some "P" })
      else if i = 2 then .error "boom"
      else .ok (200, { id := some "S" })
    groq := .error "unused" }

/-- Three extracted items. -/
def extractedThree : ExtractedTasksResult :=
  { tasks := [{ task := "A" }, { task := "B" }, { task := "C" }] }

/-- C4 witness: with three items and one failing subtask call, all
three subtasks are still attempted in order after exactly one parent
creation. -/
theorem all_items_attempted_witness :
    ∃ summary : TaskCreationSummary,
      (createMeetingTasksInClickUp envTasky oracleTasky payloadHi routeTasky extractedThree).2
          = .ok summary
      ∧ summary.mainTaskId = some "P"
      ∧ summary.eligibleSubtasksCount = extractedThree.tasks.length
      ∧ summary.createdSubtasksCount ≤ extractedThree.tasks.length
      ∧ (createMeetingTasksInClickUp envTasky oracleTasky payloadHi routeTasky extractedThree).1.countP
          isParentTaskCall = 1
      ∧ (createMeetingTasksInClickUp envTasky oracleTasky payloadHi routeTasky extractedThree).1.filterMap
          subtaskNameOf = extractedThree.tasks.map (fun item => item.task) :=
  all_extracted_items_attempted envTasky oracleTasky payloadHi routeTasky extractedThree "L1"
    { id := some "P" } "P" (by decide) (by decide) (by decide) (by decide)

/-! ## C1: route selection picks the first route of maximal score -/

theorem insertByScore_head (x : ScoredRoute) (s : List ScoredRoute) :
    (insertByScore x s).head?
      = some (match s.head? with
              | none => x
              | some y => if y.score ≤ x.score then x else y) := by
  cases s with
  | nil => rfl
  | cons y ys =>
    by_cases h : y.score ≤ x.score
    · simp [insertByScore, h]
    · simp [insertByScore, h]

/-- The selection the stable descending sort plus `head?` performs:
the first element of maximal positive score, scanned left to right. -/
def firstMaxPos : List ScoredRoute → Option ScoredRoute
  | [] => none
  | x :: xs =>
    match firstMaxPos xs with
    | none => if 0 < x.score then some x else none
    | some m => if m.score ≤ x.score then some x else some m

theorem firstMaxPos_pos : ∀ {l : List ScoredRoute} {m : ScoredRoute},
    firstMaxPos l = some m → 0 < m.score := by
  intro l
  induction l with
  | nil =>
    intro m h
    simp [firstMaxPos] at h
  | cons x xs ih =>
    intro m h
    rw [firstMaxPos] at h
    rcases hm : firstMaxPos xs with _ | m0 <;> simp only [hm] at h
    · by_cases hpos : 0 < x.score
      · rw [if_pos hpos] at h
        cases h
        exact hpos
      · rw [if_neg hpos] at h
        simp at h
    · have hm0 := ih hm
      by_cases hle : m0.score ≤ x.score
      · rw [if_pos hle] at h
        cases h
        exact Nat.lt_of_lt_of_le hm0 hle
      · rw [if_neg hle] at h
        cases h
        exact hm0

theorem sortRoutesDesc_filter_head (l : List ScoredRoute) :
    (sortRoutesDesc (l.filter (fun s => decide (0 < s.score)))).head? = firstMaxPos l := by
  induction l with
  | nil => rfl
  | cons x xs ih =>
    rw [firstMaxPos]
    by_cases hx : 0 < x.score
    · rw [show (x :: xs).filter (fun s => decide (0 < s.score))
            = x :: xs.filter (fun s => decide (0 < s.score)) by
          simp [List.filter_cons, hx]]
      rw [sortRoutesDesc, insertByScore_head, ih]
      rcases hm : firstMaxPos xs with _ | m
      · simp [hx]
      · by_cases hle : m.score ≤ x.score <;> simp [hle]
    · rw [show (x :: xs).filter (fun s => decide (0 < s.score))
            = xs.filter (fun s => decide (0 < s.score)) by
          simp [List.filter_cons, hx]]
      rw [ih]
      rcases hm : firstMaxPos xs with _ | m
      · simp [hx]
      · have hpos := firstMaxPos_pos hm
        have hnle : ¬ m.score ≤ x.score := by omega
        simp [hnle]

theorem firstMaxPos_map_none {fields : List String} :
    ∀ {routes : List ClickUpMeetingRoute},
      firstMaxPos (routes.map (scoreRoute fields)) = none →
      ∀ r ∈ routes, scoreFor fields r = 0 := by
  intro routes
  induction routes with
  | nil =>
    intro _ r hr
    simp at hr
  | cons a rs ih =>
    intro h r hr
    rw [List.map_cons, firstMaxPos] at h
    rcases hm : firstMaxPos (rs.map (scoreRoute fields)) with _ | m0 <;> simp only [hm] at h
    · by_cases hpos : 0 < (scoreRoute fields a).score
      · rw [if_pos hpos] at h
        simp at h
      · rcases List.mem_cons.mp hr with rfl | hr2
        · have hdef : (scoreRoute fields r).score = scoreFor fields r := rfl
          omega
        · exact ih hm r hr2
    · by_cases hge : m0.score ≤ (scoreRoute fields a).score
      · rw [if_pos hge] at h
        simp at h
      · rw [if_neg hge] at h
        simp at h

theorem firstMaxPos_map_some {fields : List String} :
    ∀ {routes : List ClickUpMeetingRoute} {m : ScoredRoute},
      firstMaxPos (routes.map (scoreRoute fields)) = some m →
      m = scoreRoute fields m.route
      ∧ (∃ r₁ r₂, routes = r₁ ++ m.route :: r₂
          ∧ ∀ r ∈ r₁, scoreFor fields r < m.score)
      ∧ 0 < m.score
      ∧ (∀ r ∈ routes, scoreFor fields r ≤ m.score) := by
  intro routes
  induction routes with
  | nil =>
    intro m h
    simp [firstMaxPos] at h
  | cons a rs ih =>
    intro m h
    rw [List.map_cons, firstMaxPos] at h
    rcases hm : firstMaxPos (rs.map (scoreRoute fields)) with _ | m0 <;> simp only [hm] at h
    · by_cases hpos : 0 < (scoreRoute fields a).score
      · rw [if_pos hpos] at h
        cases h
        have hz := firstMaxPos_map_none hm
        refine ⟨rfl, ⟨[], rs, rfl, by simp⟩, hpos, ?_⟩
        intro r hr
        rcases List.mem_cons.mp hr with rfl | hr2
        · exact Nat.le_refl _
        · rw [hz r hr2]
          exact Nat.zero_le _
      · rw [if_neg hpos] at h
        simp at h
    · obtain ⟨hm0eq, ⟨r₁, r₂, hsplit, hlt⟩, hm0pos, hle⟩ := ih hm
      by_cases hge : m0.score ≤ (scoreRoute fields a).score
      · rw [if_pos hge] at h
        cases h
        refine ⟨rfl, ⟨[], rs, rfl, by simp⟩, Nat.lt_of_lt_of_le hm0pos hge, ?_⟩
        intro r hr
        rcases List.mem_cons.mp hr with rfl | hr2
        · exact Nat.le_refl _
        · exact Nat.le_trans (hle r hr2) hge
      · rw [if_neg hge] at h
        cases h
        refine ⟨hm0eq, ⟨a :: r₁, r₂, by rw [hsplit]; rfl, ?_⟩, hm0pos, ?_⟩
        · intro r hr
          rcases List.mem_cons.mp hr with rfl | hr2
          · exact Nat.lt_of_not_le hge
          · exact hlt r hr2
        · intro r hr
          rcases List.mem_cons.mp hr with rfl | hr2
          · exact Nat.le_of_lt (Nat.lt_of_not_le hge)
          · exact hle r hr2

theorem score_pos_iff (fields : List String) (r : ClickUpMeetingRoute) :
    0 < scoreFor fields r
      ↔ ∃ kw ∈ r.keywords, ∃ field ∈ fields, strIncludes field (normalize kw) = true := by
  unfold scoreFor matchedKeywordsFor
  rw [List.length_pos_iff_exists_mem]
  constructor
  · rintro ⟨k, hk⟩
    rw [List.mem_filter] at hk
    obtain ⟨hkmem, hpred⟩ := hk
    rw [List.mem_map] at hkmem
    obtain ⟨kw, hkw, rfl⟩ := hkmem
    rw [List.any_eq_true] at hpred
    obtain ⟨field, hf, hinc⟩ := hpred
    exact ⟨kw, hkw, field, hf, hinc⟩
  · rintro ⟨kw, hkw, field, hf, hinc⟩
    exact ⟨normalize kw,
      List.mem_filter.mpr ⟨List.mem_map.mpr ⟨kw, hkw, rfl⟩,
        List.any_eq_true.mpr ⟨field, hf, hinc⟩⟩⟩

/-- C1.  For every route table, fallback id and event: (a) a
configured route is selected — i.e. the resolution yields a route with
a nonempty match set (the synthetic fallback route has an empty one) —
iff some route has a normalized keyword occurring as a substring of
some normalized matching field; and (b) any selected configured route
carries exactly its matched keywords, sits in the table with all
earlier routes scoring strictly less (the stable sort makes the
first-listed route win ties), and scores at least as much as every
route in the table. -/
theorem route_selection_first_max (routes : List ClickUpMeetingRoute)
    (fallbackTaskId : Option String) (p : FathomWebhookPayload) :
    ((∃ res, resolveRouteFromTable routes fallbackTaskId p = some res
        ∧ res.matchedKeywords ≠ [])
      ↔ ∃ r ∈ routes, ∃ kw ∈ r.keywords, ∃ field ∈ matchingFieldsFor p,
          strIncludes field (normalize kw) = true)
    ∧ ∀ res, resolveRouteFromTable routes fallbackTaskId p = some res →
        res.matchedKeywords ≠ [] →
        res.matchedKeywords
            = matchedKeywordsFor (matchingFieldsFor p) res.toClickUpMeetingRoute
        ∧ (∃ r₁ r₂, routes = r₁ ++ res.toClickUpMeetingRoute :: r₂
            ∧ ∀ r ∈ r₁, scoreFor (matchingFieldsFor p) r
                < scoreFor (matchingFieldsFor p) res.toClickUpMeetingRoute)
        ∧ ∀ r ∈ routes, scoreFor (matchingFieldsFor p) r
            ≤ scoreFor (matchingFieldsFor p) res.toClickUpMeetingRoute := by
  have hhead : (scoredRoutesFor (matchingFieldsFor p) routes).head?
      = firstMaxPos (routes.map (scoreRoute (matchingFieldsFor p))) := by
    unfold scoredRoutesFor
    exact sortRoutesDesc_filter_head _
  rcases hfm : firstMaxPos (routes.map (scoreRoute (matchingFieldsFor p))) with _ | m
  · -- no route scores: selection falls back (or none); both iff sides are false
    have hz := firstMaxPos_map_none hfm
    have hresn : resolveRouteFromTable routes fallbackTaskId p = none
        ∨ ∃ fid, resolveRouteFromTable routes fallbackTaskId p = some (defaultRouteFor fid) := by
      unfold resolveRouteFromTable
      split
      · exact Or.inl rfl
      · rw [hhead, hfm]
        rcases strTruthy fallbackTaskId with _ | fid
        · exact Or.inl rfl
        · exact Or.inr ⟨fid, rfl⟩
    constructor
    · constructor
      · rintro ⟨res, hres, hne⟩
        rcases hresn with hn | ⟨fid, hs⟩
        · rw [hn] at hres
          simp at hres
        · rw [hs] at hres
          rw [Option.some.injEq] at hres
          subst hres
          exact absurd rfl hne
      · rintro ⟨r, hr, kw, hkw, field, hf, hinc⟩
        have : 0 < scoreFor (matchingFieldsFor p) r :=
          (score_pos_iff (matchingFieldsFor p) r).mpr ⟨kw, hkw, field, hf, hinc⟩
        rw [hz r hr] at this
        exact absurd this (by omega)
    · intro res hres hne
      exfalso
      rcases hresn with hn | ⟨fid, hs⟩
      · rw [hn] at hres
        simp at hres
      · rw [hs] at hres
        rw [Option.some.injEq] at hres
        subst hres
        exact hne rfl
  · -- some route scores: the head of the sorted list is selected
    obtain ⟨hmeq, ⟨r₁, r₂, hsplit, hlt⟩, hmpos, hle⟩ := firstMaxPos_map_some hfm
    have hroutes_ne : routes.isEmpty = false := by
      rw [hsplit]
      cases r₁ <;> rfl
    have hres : resolveRouteFromTable routes fallbackTaskId p
        = some { m.route with matchedKeywords := m.matchedKeywords } := by
      unfold resolveRouteFromTable
      rw [if_neg (by simp [hroutes_ne])]
      rw [hhead, hfm]
    have hmk : m.matchedKeywords = matchedKeywordsFor (matchingFieldsFor p) m.route := by
      conv_lhs => rw [hmeq]
      rfl
    have hscore : m.score = scoreFor (matchingFieldsFor p) m.route := by
      conv_lhs => rw [hmeq]
      rfl
    have hmkne : m.matchedKeywords ≠ [] := by
      intro hcon
      have : m.score = 0 := by
        rw [hmeq]
        show (matchedKeywordsFor (matchingFieldsFor p) m.route).length = 0
        rw [← hmk, hcon]
        rfl
      omega
    have hmem : m.route ∈ routes := by
      rw [hsplit]
      exact List.mem_append_right _ (List.mem_cons_self _ _)
    constructor
    · apply iff_of_true
      · exact ⟨{ m.route with matchedKeywords := m.matchedKeywords }, hres, hmkne⟩
      · obtain ⟨kw, hkw, field, hf, hinc⟩ :=
          (score_pos_iff (matchingFieldsFor p) m.route).mp (hscore ▸ hmpos)
        exact ⟨m.route, hmem, kw, hkw, field, hf, hinc⟩
    · intro res hres2 hne
      rw [hres, Option.some.injEq] at hres2
      subst hres2
      refine ⟨hmk, ⟨r₁, r₂, hsplit, ?_⟩, ?_⟩
      · intro r hr
        rw [← hscore]
        exact hlt r hr
      · intro r hr
        rw [← hscore]
        exact hle r hr

/-- The route of the spec's OpenCables scenario. -/
def routeOpenCables : ClickUpMeetingRoute :=
  { name := "OpenCables", keywords := ["opencables", "sunil"], commentTaskId := "OC1" }

/-- Event titled `OpenCables Weekly`, recorded by `sunil@x.com`. -/
def payloadOpenCables : FathomWebhookPayload :=
  { meeting_title := some "OpenCables Weekly"
    recorded_by := some { email := some "sunil@x.com" } }

/-- The resolution outcome of the scenario: both keywords match. -/
def resolvedOpenCables : ResolvedMeetingRoute :=
  { toClickUpMeetingRoute := routeOpenCables
    matchedKeywords := ["opencables", "sunil"] }

/-- C1 witness: at the OpenCables scenario the selected route carries
both matched keywords, is first-of-maximal-score and bounds every
route's score. -/
theorem route_selection_witness :
    resolvedOpenCables.matchedKeywords
        = matchedKeywordsFor (matchingFieldsFor payloadOpenCables)
            resolvedOpenCables.toClickUpMeetingRoute
    ∧ (∃ r₁ r₂, [routeOpenCables] = r₁ ++ resolvedOpenCables.toClickUpMeetingRoute :: r₂
        ∧ ∀ r ∈ r₁, scoreFor (matchingFieldsFor payloadOpenCables) r
            < scoreFor (matchingFieldsFor payloadOpenCables)
                resolvedOpenCables.toClickUpMeetingRoute)
    ∧ ∀ r ∈ [routeOpenCables], scoreFor (matchingFieldsFor payloadOpenCables) r
        ≤ scoreFor (matchingFieldsFor payloadOpenCables)
            resolvedOpenCables.toClickUpMeetingRoute :=
  (route_selection_first_max [routeOpenCables] none payloadOpenCables).2
    resolvedOpenCables (by decide) (by decide)

end PersonalWebhook
